import Mathlib

/-!
Verification development for the Shantha Motors server (Node/Express + MongoDB).

The definitions below are a shallow embedding, translated from the
repository's JavaScript source:
  * `src/routes/stocksRoutes.js`   — stock-movement ledger, transfer workflow,
    derived `Stock` snapshot;
  * `src/models/stockMovementModel.js`, stock model — schema-level facts used
    by the routes (normalized branch keys, enums, defaults);
  * `src/routes/userRoutes.js` and the fuller user-routes variant — public
    registration handlers;
  * the forms/serial proxy router — CSV next-serial computation and the
    webhook idempotency guard.

JavaScript strings are modelled as Lean `String`s; machine-level JS number
behaviour is irrelevant here (all arithmetic is on small naturals).  The
truthiness idiom `a || b` on strings is `jsOr`.  MongoDB collections are
modelled as Lean lists; `findOne(...).sort({createdAt:-1})` over a list kept
in creation order is "last matching element".
-/

set_option maxRecDepth 10000

namespace ShanthaMotors

/-- JS `a || b` for strings: the empty string is falsy. -/
def jsOr (a b : String) : String := if a = "" then b else a

/-- JS `String.prototype.toLowerCase` on one character, restricted to the
ASCII range (the repository's branch names and actions are ASCII). -/
def toLowerChar (c : Char) : Char :=
  if 65 ≤ c.toNat ∧ c.toNat ≤ 90 then Char.ofNat (c.toNat + 32) else c

/-- JS `String.prototype.toUpperCase` on one character, ASCII range. -/
def toUpperChar (c : Char) : Char :=
  if 97 ≤ c.toNat ∧ c.toNat ≤ 122 then Char.ofNat (c.toNat - 32) else c

def jsToLower (s : String) : String := String.mk (s.data.map toLowerChar)

def jsToUpper (s : String) : String := String.mk (s.data.map toUpperChar)

/-- JS whitespace test used by `String.prototype.trim` (ASCII fragment). -/
def isJsSpace (c : Char) : Bool :=
  c.toNat = 32 || c.toNat = 9 || c.toNat = 10 || c.toNat = 11 || c.toNat = 12 || c.toNat = 13

/-- Character-list core of `String.prototype.trim`: drop whitespace from the
front, then (via reverse) from the back. -/
def trimChars (l : List Char) : List Char :=
  ((l.dropWhile isJsSpace).reverse.dropWhile isJsSpace).reverse

/-- JS `String.prototype.trim`. -/
def jsTrim (s : String) : String := String.mk (trimChars s.data)

/-- Unicode NFKD decomposition (`String.prototype.normalize('NFKD')`),
character-wise, on the fragment of the alphabet this development needs:
a representative sample of Latin-1 precomposed letters decomposes into the
base letter followed by a combining mark, everything else (in particular all
of ASCII) is its own decomposition. -/
def nfkdChar (c : Char) : List Char :=
  if c = 'é' then ['e', '́']
  else if c = 'è' then ['e', '̀']
  else if c = 'ü' then ['u', '̈']
  else if c = 'ñ' then ['n', '̃']
  else [c]

/-- Membership in the character class `[a-z0-9]`. -/
def isLowerAlnum (c : Char) : Bool :=
  (97 ≤ c.toNat ∧ c.toNat ≤ 122) ∨ (48 ≤ c.toNat ∧ c.toNat ≤ 57)

/-- Character-list core of the branch-key normalizer
(`stocksRoutes.js` `normalize` / `stockMovementModel.js` `normalizeKey`):
lowercase, NFKD-decompose, then delete every character outside `[a-z0-9]`. -/
def normalizeChars (l : List Char) : List Char :=
  (((l.map toLowerChar).map nfkdChar).flatten).filter isLowerAlnum

/-- `stocksRoutes.js`:
`const normalize = (s) => String(s || '').toLowerCase().normalize('NFKD').replace(/[^a-z0-9]/g, '')`.
An absent (`undefined`/`null`) argument behaves as the empty string, so
`Option String` callers pass `(·.getD "")`. -/
def normalize (s : String) : String := String.mk (normalizeChars s.data)

/-! ## Stock-movement ledger and derived Stock snapshot (`src/routes/stocksRoutes.js`)

MongoDB collections are Lean lists kept in creation order, so
`findOne(filter).sort({createdAt: -1})` is "last matching element".
UUID movement ids are modelled by a per-state counter (`nextId`), and clock
reads (`new Date()`) by a per-state counter (`now`); both are bumped on every
mutating request, so `createdAt` is strictly increasing along a run.
Audit-only fields never consulted by any handler (`createdBy`,
`createdByName`, `timestamp`, `sourceBranchKey`/`targetBranchKey` — the keys
are recomputed from the branch names wherever the routes need them) are not
stored on the embedded documents. -/

/-- One `StockMovement` document (`src/models/stockMovementModel.js`). -/
structure Movement where
  movementId : Nat
  chassisNo : String
  company : String
  model : String
  variant : String
  color : String
  action : String
  targetBranch : String
  returnTo : String
  customerName : String
  sourceBranch : String
  notes : String
  transferStatus : String
  resolvedBy : Option Nat
  resolvedByName : Option String
  resolvedAt : Option Nat
  deleted : Bool
  createdAt : Nat
deriving DecidableEq, Repr

/-- One `Stock` snapshot document (stock model file): current state of a
chassis, at most one document per chassis number. -/
structure Stock where
  chassisNo : String
  company : String
  model : String
  variant : String
  color : String
  sourceBranch : String
  lastSourceBranch : String
  status : String
  lastMovementId : Nat
deriving DecidableEq, Repr

/-- Database state of the stock subsystem plus the id/clock sources. -/
structure ServerSt where
  movements : List Movement
  stocks : List Stock
  nextId : Nat
  now : Nat
deriving DecidableEq, Repr

/-- The authenticated caller, as the handlers see it after the
`User.findById` / `getBranchNameForUser` lookups: resolved role, display
name, and branch name (`""` when `getBranchNameForUser` returned `null`). -/
structure Requester where
  userId : Nat
  role : String
  name : String
  userBranch : String
deriving DecidableEq, Repr

/-- `['staff', 'mechanic', 'employees'].includes(role)`. -/
def staffLike (role : String) : Bool :=
  role = "staff" || role = "mechanic" || role = "employees"

/-- `role === 'admin' || role === 'owner' || role === 'backend'`. -/
def isPrivileged (role : String) : Bool :=
  role = "admin" || role = "owner" || role = "backend"

/-- JS `x || null` on a string. -/
def jsOrNone (s : String) : Option String := if s = "" then none else some s

/-- `deriveCurrentBranch` (stocksRoutes.js): the branch a single movement
places the chassis in, or `none` when the movement takes it out of stock. -/
def deriveCurrentBranch (m : Movement) : Option String :=
  let act := jsToLower m.action
  let transferStatus := jsToLower (jsOr m.transferStatus "completed")
  let transferAdmitted := transferStatus = "admitted" || transferStatus = "completed"
  if act = "add" then jsOrNone m.sourceBranch
  else if act = "transfer" then
    if !transferAdmitted then jsOrNone m.sourceBranch
    else jsOrNone m.targetBranch
  else none

/-- A fresh `Stock` document as the upsert inserts it before `$set` runs:
schema defaults (`status: 'in_stock'`) plus empty-string sentinels for
absent string fields; `0` stands for an absent `lastMovementId`. -/
def blankStock (ch : String) : Stock :=
  { chassisNo := ch, company := "", model := "", variant := "", color := "",
    sourceBranch := "", lastSourceBranch := "", status := "in_stock",
    lastMovementId := 0 }

/-- `movement.company || undefined` inside a `$set`: a falsy value is not
written, so the existing document's value survives. -/
def vehicleField (newVal oldVal : String) : String :=
  if newVal = "" then oldVal else newVal

/-- The `baseVehicle` part of `applyMovementToStock`'s `$set`. -/
def setVehicle (m : Movement) (base : Stock) : Stock :=
  { base with
    company := vehicleField m.company base.company,
    model := vehicleField m.model base.model,
    variant := vehicleField m.variant base.variant,
    color := vehicleField m.color base.color }

/-- `const prevBranch = existing?.sourceBranch || movement.sourceBranch || ''`
in the transfer branch of `applyMovementToStock`. -/
def transferPrevBranch (m : Movement) (existing : Option Stock) : String :=
  jsOr ((existing.map (·.sourceBranch)).getD "") (jsOr m.sourceBranch "")

/-- The `nextBranch` the transfer branch of `applyMovementToStock` writes:
the target once admitted/completed, the stay-branch while pending/rejected. -/
def transferNextBranch (m : Movement) (existing : Option Stock) : String :=
  let transferStatus := jsToLower (jsOr m.transferStatus "completed")
  let transferAdmitted := transferStatus = "admitted" || transferStatus = "completed"
  let stayBranch := jsOr m.sourceBranch (transferPrevBranch m existing)
  if transferAdmitted then jsOr m.targetBranch (jsOr ((existing.map (·.sourceBranch)).getD "") "")
  else stayBranch

/-- Document-level core of `applyMovementToStock` (stocksRoutes.js): given
the movement and the existing snapshot for its chassis (if any), the snapshot
document after the upsert, or `none` when the function is a no-op (blank
chassis or unrecognized action). -/
def applyStockDoc (m : Movement) (existing : Option Stock) : Option Stock :=
  let act := jsToLower m.action
  let ch := jsToUpper (jsTrim m.chassisNo)
  if ch = "" then none
  else
    let base := setVehicle m (existing.getD (blankStock ch))
    if act = "add" then
      some { base with sourceBranch := jsOr m.sourceBranch "",
                       status := "in_stock", lastMovementId := m.movementId }
    else if act = "transfer" then
      some { base with sourceBranch := transferNextBranch m existing,
                       lastSourceBranch := transferPrevBranch m existing,
                       status := "in_stock", lastMovementId := m.movementId }
    else if act = "return" || act = "invoice" then
      some { base with status := "out", sourceBranch := "", lastMovementId := m.movementId }
    else none

/-- `Stock.findOne({ chassisNo })` over the snapshot collection. -/
def findStock (stocks : List Stock) (ch : String) : Option Stock :=
  stocks.find? (fun s => s.chassisNo == ch)

/-- `findOneAndUpdate({ chassisNo }, { $set: ... }, { upsert: true })` at the
collection level: replace the (unique) existing document or append a new one. -/
def upsertStock (ch : String) (doc : Stock) (stocks : List Stock) : List Stock :=
  if stocks.any (fun s => s.chassisNo == ch) then
    stocks.map (fun s => if s.chassisNo == ch then doc else s)
  else stocks ++ [doc]

/-- `applyMovementToStock` at the collection level. -/
def applyMovementToStock (m : Movement) (stocks : List Stock) : List Stock :=
  let ch := jsToUpper (jsTrim m.chassisNo)
  match applyStockDoc m (findStock stocks ch) with
  | none => stocks
  | some doc => upsertStock ch doc stocks

/-- `StockMovement.findOne({ chassisNo, deleted: { $ne: true } }).sort({ createdAt: -1 })`. -/
def latestNonDeleted (ms : List Movement) (ch : String) : Option Movement :=
  (ms.filter (fun m => m.chassisNo == ch && !m.deleted)).getLast?

/-- `recomputeStockForChassis` (stocksRoutes.js): re-derive the snapshot for
one chassis from its latest non-deleted movement; delete the snapshot
document when no movement remains. -/
def recomputeStockForChassis (ch : String) (st : ServerSt) : ServerSt :=
  let c := jsToUpper (jsTrim ch)
  if c = "" then st
  else
    match latestNonDeleted st.movements c with
    | none => { st with stocks := st.stocks.eraseP (fun s => s.chassisNo == c) }
    | some m => { st with stocks := applyMovementToStock m st.stocks }

/-- An error response: HTTP status plus `message`. -/
structure HttpError where
  status : Nat
  message : String
deriving DecidableEq, Repr

/-- The `from` object of `POST /` after alias merging: each string field
stands for `from.Sheet_Alias || from.camelCase || ''` and `movementId = none`
stands for an absent client-supplied movement id. -/
structure FromBody where
  movementId : Option Nat
  chassisNo : String
  company : String
  model : String
  variant : String
  color : String
  action : String
  targetBranch : String
  returnTo : String
  customerName : String
  sourceBranch : String
  notes : String
deriving DecidableEq, Repr

/-- A `POST /` request body: either flat or nested under `data`
(`const from = req.body?.data || req.body || {}`). -/
structure Body where
  data : Option FromBody
  flat : FromBody
deriving DecidableEq, Repr

def fromOf (b : Body) : FromBody := b.data.getD b.flat

/-- The `payload` object of `POST /` after construction (lines building
`payload`) and normalization (trim/uppercase of chassis, trim of branches):
action defaults to `'transfer'`, staff-like callers get their own branch as
`sourceBranch`, `transferStatus` starts as `'completed'`. -/
def mkPayload (rq : Requester) (b : Body) (uuid : Nat) (now : Nat) : Movement :=
  let f := fromOf b
  let sl := staffLike (jsToLower rq.role)
  { movementId := f.movementId.getD uuid
    chassisNo := jsToUpper (jsTrim f.chassisNo)
    company := f.company
    model := f.model
    variant := f.variant
    color := f.color
    action := jsOr (jsToLower f.action) "transfer"
    targetBranch := jsTrim f.targetBranch
    returnTo := f.returnTo
    customerName := f.customerName
    sourceBranch := jsTrim (if sl then jsOr rq.userBranch ""
                            else jsOr f.sourceBranch (jsOr rq.userBranch ""))
    notes := f.notes
    transferStatus := "completed"
    resolvedBy := none
    resolvedByName := none
    resolvedAt := none
    deleted := false
    createdAt := now }

/-- Append of the `'(auto: add→transfer)'` annotation to `payload.notes`. -/
def appendAutoNote (notes : String) : String :=
  if notes = "" then "(auto: add→transfer)" else notes ++ " (auto: add→transfer)"

/-- The `POST /` block that rewrites an `add` for a chassis that already has
a current branch (per the ledger) into a `transfer` when the desired
destination differs from that branch. -/
def ledgerAutoConvert (rq : Requester) (currentBranch : Option String)
    (p : Movement) : Movement :=
  match currentBranch with
  | none => p
  | some cb =>
    if p.action = "add" then
      let desiredDest := jsOr p.sourceBranch (jsOr rq.userBranch "")
      if desiredDest ≠ "" ∧ desiredDest ≠ cb then
        { p with action := "transfer", sourceBranch := cb, targetBranch := desiredDest,
                 notes := appendAutoNote p.notes }
      else p
    else p

/-- The `POST /` `add` block: require a source branch, and defend against a
chassis whose snapshot is already `in_stock` (convert to transfer when it
sits in a different branch, reject with 409 when it sits in the same one). -/
def addBlock (rq : Requester) (stocks : List Stock) (p : Movement) :
    Except HttpError Movement :=
  if p.action = "add" then
    if p.sourceBranch = "" then
      .error ⟨400, "Source branch is required for add"⟩
    else
      match stocks.find? (fun s => s.chassisNo == p.chassisNo && s.status == "in_stock") with
      | none => .ok p
      | some existingStock =>
        let existingBranch := jsOr existingStock.sourceBranch ""
        if existingBranch ≠ "" ∧ existingBranch ≠ p.sourceBranch then
          let tb := jsOr (jsTrim p.targetBranch) (jsOr rq.userBranch "")
          if tb = "" then
            .error ⟨400, "Target branch is required (auto add→transfer)"⟩
          else
            .ok { p with action := "transfer", sourceBranch := existingBranch,
                         targetBranch := tb, notes := appendAutoNote p.notes }
        else
          .error ⟨409, "Chassis already exists in this branch"⟩
  else .ok p

/-- `if (currentBranch && payload.sourceBranch !== currentBranch)
payload.sourceBranch = currentBranch`: the ledger is trusted over the
client-supplied source branch. -/
def forceSource (currentBranch : Option String) (p : Movement) : Movement :=
  match currentBranch with
  | some cb => if p.sourceBranch ≠ cb then { p with sourceBranch := cb } else p
  | none => p

/-- The pre-insert existence check for a pending transfer on a chassis
(`StockMovement.findOne({chassisNo, action:'transfer', transferStatus:'pending',
deleted:{$ne:true}})` viewed as a boolean). -/
def hasPendingTransfer (movements : List Movement) (ch : String) : Bool :=
  movements.any (fun m => m.chassisNo == ch && m.action == "transfer" &&
    m.transferStatus == "pending" && !m.deleted)

/-- The `POST /` transfer block: target required, source forced to the
ledger's current branch, source≠target, `transferStatus := 'pending'`, and
the pending-transfer existence check; every other action gets
`transferStatus := 'completed'`. -/
def transferBlock (currentBranch : Option String) (movements : List Movement)
    (p : Movement) : Except HttpError Movement :=
  if p.action = "transfer" then
    if p.targetBranch = "" then
      .error ⟨400, "Target branch is required for transfer"⟩
    else
      let q := forceSource currentBranch p
      if q.sourceBranch ≠ "" ∧ q.targetBranch ≠ "" ∧ q.sourceBranch = q.targetBranch then
        .error ⟨400, "Source and target branch cannot be the same"⟩
      else
        let r := { q with transferStatus := "pending" }
        if hasPendingTransfer movements r.chassisNo then
          .error ⟨409, "A pending transfer already exists for this chassis"⟩
        else .ok r
  else .ok { p with transferStatus := "completed" }

/-- `StockMovement` schema: legal `action` values; `StockMovement.create`
rejects anything else (mongoose enum validation), surfaced as the handler's
catch-all 500. -/
def ACTIONS : List String := ["add", "transfer", "return", "invoice"]

/-- `POST /` (stocksRoutes.js): create a movement.  On success returns the
created movement and the new state (ledger appended, snapshot re-applied). -/
def createMovement (rq : Requester) (b : Body) (st : ServerSt) :
    Except HttpError (Movement × ServerSt) :=
  let p0 := mkPayload rq b st.nextId st.now
  if p0.chassisNo = "" then
    .error ⟨400, "Chassis number is required"⟩
  else
    let currentBranch := (latestNonDeleted st.movements p0.chassisNo).bind deriveCurrentBranch
    match addBlock rq st.stocks (ledgerAutoConvert rq currentBranch p0) with
    | .error e => .error e
    | .ok p2 =>
      match transferBlock currentBranch st.movements p2 with
      | .error e => .error e
      | .ok p3 =>
        if ¬ (p3.action ∈ ACTIONS) then
          .error ⟨500, "Failed to create stock movement"⟩
        else if st.movements.any (fun m => m.movementId == p3.movementId) then
          .error ⟨500, "Failed to create stock movement"⟩
        else
          .ok (p3, { movements := st.movements ++ [p3],
                     stocks := applyMovementToStock p3 st.stocks,
                     nextId := st.nextId + 1, now := st.now + 1 })

/-- Append of an `"Admit: …"` / `"Reject: …"` annotation to a movement's
notes, as the admit/reject handlers do. -/
def appendResolution (notes label note : String) : String :=
  if note = "" then notes
  else if notes = "" then label ++ ": " ++ note
  else notes ++ " | " ++ label ++ ": " ++ note

/-- `POST /:id/admit` (stocksRoutes.js): admit a pending transfer. -/
def admitTransfer (rq : Requester) (id : Nat) (note : String) (st : ServerSt) :
    Except HttpError (Movement × ServerSt) :=
  match st.movements.find? (fun m => m.movementId == id && !m.deleted) with
  | none => .error ⟨404, "Transfer not found"⟩
  | some movement =>
    if movement.action ≠ "transfer" then
      .error ⟨404, "Transfer not found"⟩
    else if jsToLower (jsOr movement.transferStatus "completed") ≠ "pending" then
      .error ⟨400, "Transfer already resolved"⟩
    else
      let isPriv := isPrivileged (jsToLower rq.role)
      let targetKey := normalize movement.targetBranch
      let userBranchKey := normalize rq.userBranch
      if ¬isPriv ∧ (userBranchKey = "" ∨ userBranchKey ≠ targetKey) then
        .error ⟨403, "Not authorized to admit for this branch"⟩
      else
        let m' := { movement with
          transferStatus := "admitted",
          resolvedAt := some st.now,
          resolvedBy := some rq.userId,
          resolvedByName := some (jsOr rq.name "user"),
          notes := appendResolution movement.notes "Admit" (jsTrim note) }
        let movements' := st.movements.map (fun m => if m.movementId == id then m' else m)
        .ok (m', { st with movements := movements',
                           stocks := applyMovementToStock m' st.stocks,
                           now := st.now + 1 })

/-- `POST /:id/reject` (stocksRoutes.js): reject a pending transfer. -/
def rejectTransfer (rq : Requester) (id : Nat) (reason : String) (st : ServerSt) :
    Except HttpError (Movement × ServerSt) :=
  match st.movements.find? (fun m => m.movementId == id && !m.deleted) with
  | none => .error ⟨404, "Transfer not found"⟩
  | some movement =>
    if movement.action ≠ "transfer" then
      .error ⟨404, "Transfer not found"⟩
    else if jsToLower (jsOr movement.transferStatus "completed") ≠ "pending" then
      .error ⟨400, "Transfer already resolved"⟩
    else
      let isPriv := isPrivileged (jsToLower rq.role)
      let targetKey := normalize movement.targetBranch
      let userBranchKey := normalize rq.userBranch
      if ¬isPriv ∧ (userBranchKey = "" ∨ userBranchKey ≠ targetKey) then
        .error ⟨403, "Not authorized to reject for this branch"⟩
      else
        let m' := { movement with
          transferStatus := "rejected",
          resolvedAt := some st.now,
          resolvedBy := some rq.userId,
          resolvedByName := some (jsOr rq.name "user"),
          notes := appendResolution movement.notes "Reject" (jsTrim reason) }
        let movements' := st.movements.map (fun m => if m.movementId == id then m' else m)
        .ok (m', { st with movements := movements',
                           stocks := applyMovementToStock m' st.stocks,
                           now := st.now + 1 })

/-- `PATCH /:id` body after the capitalized/camelCase alias mapping:
`some v` for a field present in the patch, `none` for an absent one.
(The nested `resolvedBy`/`resolvedAt` options let a patch write `null`.) -/
structure PatchBody where
  chassisNo : Option String
  company : Option String
  model : Option String
  variant : Option String
  color : Option String
  action : Option String
  targetBranch : Option String
  returnTo : Option String
  customerName : Option String
  sourceBranch : Option String
  notes : Option String
  movementId : Option Nat
  transferStatus : Option String
  resolvedBy : Option (Option Nat)
  resolvedByName : Option (Option String)
  resolvedAt : Option (Option Nat)
deriving DecidableEq, Repr

/-- `findOneAndUpdate({movementId}, patch)`: apply the `$set` patch to a
movement document.  Mongoose applies the schema's `uppercase`/`trim` setters
to `chassisNo`, but (with default options) runs **no** enum validators on
updates, so `action`/`transferStatus` accept any string here. -/
def applyPatch (p : PatchBody) (m : Movement) : Movement :=
  { m with
    chassisNo := match p.chassisNo with
      | some v => jsToUpper (jsTrim v)
      | none => m.chassisNo
    company := p.company.getD m.company
    model := p.model.getD m.model
    variant := p.variant.getD m.variant
    color := p.color.getD m.color
    action := p.action.getD m.action
    targetBranch := p.targetBranch.getD m.targetBranch
    returnTo := p.returnTo.getD m.returnTo
    customerName := p.customerName.getD m.customerName
    sourceBranch := p.sourceBranch.getD m.sourceBranch
    notes := p.notes.getD m.notes
    movementId := p.movementId.getD m.movementId
    transferStatus := p.transferStatus.getD m.transferStatus
    resolvedBy := p.resolvedBy.getD m.resolvedBy
    resolvedByName := p.resolvedByName.getD m.resolvedByName
    resolvedAt := p.resolvedAt.getD m.resolvedAt }

/-- `PATCH /:id` (stocksRoutes.js): admin/owner/backend only; patch the
movement, then recompute the snapshot for the (patched) chassis. -/
def patchMovement (rq : Requester) (id : Nat) (p : PatchBody) (st : ServerSt) :
    Except HttpError (Movement × ServerSt) :=
  if ¬ isPrivileged (jsToLower rq.role) then
    .error ⟨403, "Forbidden"⟩
  else
    match st.movements.find? (fun m => m.movementId == id) with
    | none => .error ⟨404, "Movement not found"⟩
    | some m =>
      let m' := applyPatch p m
      let st1 := { st with
        movements := st.movements.map (fun x => if x.movementId == id then m' else x) }
      let st2 := recomputeStockForChassis m'.chassisNo st1
      .ok (m', { st2 with now := st.now + 1 })

/-- `DELETE /:id` (stocksRoutes.js): admin/owner/backend only; set
`deleted := true`, then recompute the snapshot for the chassis. -/
def softDeleteMovement (rq : Requester) (id : Nat) (st : ServerSt) :
    Except HttpError (Movement × ServerSt) :=
  if ¬ isPrivileged (jsToLower rq.role) then
    .error ⟨403, "Forbidden"⟩
  else
    match st.movements.find? (fun m => m.movementId == id) with
    | none => .error ⟨404, "Movement not found"⟩
    | some m =>
      let m' := { m with deleted := true }
      let st1 := { st with
        movements := st.movements.map (fun x => if x.movementId == id then m' else x) }
      let st2 := recomputeStockForChassis m'.chassisNo st1
      .ok (m', { st2 with now := st.now + 1 })

/-- One sequential request against the stock-movement API. -/
inductive Op where
  | createOp (rq : Requester) (b : Body)
  | admitOp (rq : Requester) (id : Nat) (note : String)
  | rejectOp (rq : Requester) (id : Nat) (reason : String)
  | patchOp (rq : Requester) (id : Nat) (p : PatchBody)
  | deleteOp (rq : Requester) (id : Nat)
deriving Repr

/-- State after one request; a request that answered an error leaves the
database unchanged. -/
def stepOp (st : ServerSt) (o : Op) : ServerSt :=
  match o with
  | .createOp rq b => ((createMovement rq b st).map Prod.snd).toOption.getD st
  | .admitOp rq id note => ((admitTransfer rq id note st).map Prod.snd).toOption.getD st
  | .rejectOp rq id reason => ((rejectTransfer rq id reason st).map Prod.snd).toOption.getD st
  | .patchOp rq id p => ((patchMovement rq id p st).map Prod.snd).toOption.getD st
  | .deleteOp rq id => ((softDeleteMovement rq id st).map Prod.snd).toOption.getD st

/-- The empty database at server start. -/
def initSt : ServerSt := { movements := [], stocks := [], nextId := 1, now := 1 }

/-- The state after a sequential run of requests from the empty database. -/
def runOps (ops : List Op) : ServerSt := ops.foldl stepOp initSt

/-! ### Concrete example runs (used to evaluate the theorems on real inputs) -/

/-- A request body with every field absent. -/
def exFromEmpty : FromBody :=
  { movementId := none, chassisNo := "", company := "", model := "", variant := "",
    color := "", action := "", targetBranch := "", returnTo := "", customerName := "",
    sourceBranch := "", notes := "" }

/-- An admin caller with no branch of their own. -/
def exAdmin : Requester := { userId := 1, role := "admin", name := "Admin", userBranch := "" }

/-- A staff caller stationed at branch B. -/
def exStaffB : Requester := { userId := 2, role := "staff", name := "Bela", userBranch := "B" }

/-- `POST /` body: add chassis x1 to branch A. -/
def exAddBody : Body :=
  { data := none,
    flat := { exFromEmpty with
              chassisNo := "x1", action := "add", sourceBranch := "A" } }

/-- `POST /` body: transfer chassis x1 to branch B. -/
def exTransferBody : Body :=
  { data := none,
    flat := { exFromEmpty with
              chassisNo := "x1", action := "transfer", targetBranch := "B" } }

/-- `POST /` body: add chassis x1 to branch C (while it sits in A). -/
def exAddBodyC : Body :=
  { data := none,
    flat := { exFromEmpty with
              chassisNo := "x1", action := "add", sourceBranch := "C" } }

/-- State after `add x1 → A`. -/
def exSt1 : ServerSt := runOps [.createOp exAdmin exAddBody]

/-- State after `add x1 → A; transfer x1 A → B (pending)`. -/
def exSt2 : ServerSt := runOps [.createOp exAdmin exAddBody, .createOp exAdmin exTransferBody]

/-- State after the pending transfer was admitted by staff of branch B. -/
def exSt3 : ServerSt :=
  runOps [.createOp exAdmin exAddBody, .createOp exAdmin exTransferBody,
          .admitOp exStaffB 2 ""]

/-- State after the pending transfer was rejected by staff of branch B. -/
def exSt3r : ServerSt :=
  runOps [.createOp exAdmin exAddBody, .createOp exAdmin exTransferBody,
          .rejectOp exStaffB 2 ""]

/-- The pending transfer movement as `POST /` creates it in `exSt2`. -/
def exTrMv : Movement :=
  { movementId := 2, chassisNo := "X1", company := "", model := "", variant := "",
    color := "", action := "transfer", targetBranch := "B", returnTo := "",
    customerName := "", sourceBranch := "A", notes := "", transferStatus := "pending",
    resolvedBy := none, resolvedByName := none, resolvedAt := none, deleted := false,
    createdAt := 2 }

/-- The same movement after the admit handler resolved it. -/
def exAdmitMv : Movement :=
  { exTrMv with transferStatus := "admitted", resolvedBy := some 2,
                resolvedByName := some "Bela", resolvedAt := some 3 }

/-- The same movement after the reject handler resolved it. -/
def exRejectMv : Movement :=
  { exTrMv with transferStatus := "rejected", resolvedBy := some 2,
                resolvedByName := some "Bela", resolvedAt := some 3 }

/-- The Stock snapshot for x1 as it exists in `exSt1` (in stock at A). -/
def exStockA : Stock :=
  { chassisNo := "X1", company := "", model := "", variant := "", color := "",
    sourceBranch := "A", lastSourceBranch := "", status := "in_stock",
    lastMovementId := 1 }

/-- `POST /` body: an add with no source branch at all. -/
def exNoSrcAddBody : Body :=
  { data := none, flat := { exFromEmpty with chassisNo := "x1", action := "add" } }

/-- `POST /` body carrying no `Action`/`action` value (and no target). -/
def exNoActionBody : Body :=
  { data := none, flat := { exFromEmpty with chassisNo := "x1" } }

/-- The movement the auto-converted `add x1 → C` request creates in `exSt1`. -/
def exAutoTrMv : Movement :=
  { movementId := 2, chassisNo := "X1", company := "", model := "", variant := "",
    color := "", action := "transfer", targetBranch := "C", returnTo := "",
    customerName := "", sourceBranch := "A", notes := "(auto: add→transfer)",
    transferStatus := "pending", resolvedBy := none, resolvedByName := none,
    resolvedAt := none, deleted := false, createdAt := 2 }

/-- State after `add x1 → A; add x1 → C (auto-converted to transfer)`. -/
def exStC : ServerSt := runOps [.createOp exAdmin exAddBody, .createOp exAdmin exAddBodyC]

/-- Number of live pending transfers for one chassis
(`chassisNo`/`action='transfer'`/`transferStatus='pending'`/`deleted≠true`). -/
def pendingCount (st : ServerSt) (ch : String) : Nat :=
  st.movements.countP (fun m => m.chassisNo == ch && m.action == "transfer" &&
    m.transferStatus == "pending" && !m.deleted)

/-- The pending-transfer uniqueness invariant: at most one live pending
transfer per chassis. -/
def pendingUnique (st : ServerSt) : Prop := ∀ ch, pendingCount st ch ≤ 1

/-- Is this request the privileged full-update `PATCH /:id`? -/
def isPatchOp : Op → Bool
  | .patchOp _ _ _ => true
  | _ => false

/-- A `PATCH /:id` body with every field absent. -/
def exEmptyPatch : PatchBody :=
  { chassisNo := none, company := none, model := none, variant := none, color := none,
    action := none, targetBranch := none, returnTo := none, customerName := none,
    sourceBranch := none, notes := none, movementId := none, transferStatus := none,
    resolvedBy := none, resolvedByName := none, resolvedAt := none }

/-- A `PATCH /:id` body that only replaces the notes. -/
def exNotesPatch : PatchBody := { exEmptyPatch with notes := some "price updated" }

/-- A `PATCH /:id` body that forces `transferStatus` back to `pending`. -/
def exPendingPatch : PatchBody := { exEmptyPatch with transferStatus := some "pending" }

/-- The movement `2` of `exSt2` after the notes patch. -/
def exTrMvPatched : Movement := { exTrMv with notes := "price updated" }

/-- State after `add; transfer (pending); PATCH notes of the transfer`. -/
def exStPatch : ServerSt :=
  runOps [.createOp exAdmin exAddBody, .createOp exAdmin exTransferBody,
          .patchOp exAdmin 2 exNotesPatch]

/-- Movement `1` of `exSt1` after its soft delete. -/
def exAddMvDel : Movement :=
  { movementId := 1, chassisNo := "X1", company := "", model := "", variant := "",
    color := "", action := "add", targetBranch := "", returnTo := "",
    customerName := "", sourceBranch := "A", notes := "", transferStatus := "completed",
    resolvedBy := none, resolvedByName := none, resolvedAt := none, deleted := true,
    createdAt := 1 }

/-- State after `add; transfer; admit; DELETE the admitted transfer`:
the snapshot must relocate back to branch A. -/
def exStDel : ServerSt :=
  runOps [.createOp exAdmin exAddBody, .createOp exAdmin exTransferBody,
          .admitOp exStaffB 2 "", .deleteOp exAdmin 2]

/-- State after `add; DELETE the add`: no Stock document may remain. -/
def exStDelAll : ServerSt := runOps [.createOp exAdmin exAddBody, .deleteOp exAdmin 1]

/-- A fully API-reachable run that ends with two live pending transfers for
chassis X1: open a transfer, reject it, open a second transfer, then use the
privileged `PATCH /:id` to force the first one's `transferStatus` back to
`pending` (the patch endpoint runs no state-machine check and, with
mongoose's default update options, no enum validation either). -/
def exStTwoPending : ServerSt :=
  runOps [.createOp exAdmin exAddBody, .createOp exAdmin exTransferBody,
          .rejectOp exStaffB 2 "", .createOp exAdmin exTransferBody,
          .patchOp exAdmin 2 exPendingPatch]

/-- The same run without the final patch: a no-PATCH reachable state. -/
def exStNoPatch : ServerSt :=
  runOps [.createOp exAdmin exAddBody, .createOp exAdmin exTransferBody,
          .rejectOp exStaffB 2 "", .createOp exAdmin exTransferBody]

/-! ## Public registration handlers
(`src/routes/userRoutes.js` — the simple variant — and the fuller users
router with the `safeBody` register; user model for schema semantics.) -/

/-- One `User` document, restricted to the fields the registration claims
concern.  `primaryBranch`/`branches` hold Branch ObjectIds, modelled as
strings. -/
structure User where
  name : String
  email : String
  phone : Option String
  password : String
  role : String
  primaryBranch : Option String
  branches : List String
deriving DecidableEq, Repr

/-- User model `ROLE_OPTIONS`. -/
def ROLE_OPTIONS : List String :=
  ["admin", "mechanic", "staff", "employees", "owner", "backend", "user"]

/-- User model `BRANCH_BOUND_ROLES`: roles that must carry a primaryBranch. -/
def BRANCH_BOUND_ROLES : List String := ["staff", "mechanic", "employees"]

/-- `bcrypt.hash` modelled as an injective tagging of the plain text; the
hash's cryptographic properties are irrelevant to the claims. -/
def bcryptHash (pw : String) : String := "bcrypt$" ++ pw

/-- The schema's `email` setters (`trim: true, lowercase: true`), applied by
mongoose on both writes and query filters. -/
def normEmail (e : String) : String := jsToLower (jsTrim e)

/-- A register request body (`req.body`): `none` marks an absent field. -/
structure RegisterBody where
  name : String
  email : String
  phone : Option String
  password : String
  role : Option String
  primaryBranch : Option String
  branches : List String
deriving DecidableEq, Repr

/-- `new User(req.body)` in the simple register variant: every submitted
field (including `role`/`primaryBranch`/`branches`) flows into the document;
the schema defaults `role` to `'staff'` only when the body omits it. -/
def mkUserFromBody (b : RegisterBody) (hashedPassword : String) : User :=
  { name := jsTrim b.name, email := normEmail b.email,
    phone := b.phone.map jsTrim, password := hashedPassword,
    role := b.role.getD "staff", primaryBranch := b.primaryBranch,
    branches := b.branches }

/-- `save()` under the user schema: enum/required/branch-bound validation
plus the unique indexes on email and (sparse) phone; a failed save throws,
modelled as `Except.error`. -/
def saveUser (users : List User) (u : User) : Except String (List User) :=
  if ¬ (u.role ∈ ROLE_OPTIONS) then .error "validation"
  else if u.name = "" ∨ u.email = "" ∨ u.password = "" then .error "validation"
  else if u.role ∈ BRANCH_BOUND_ROLES ∧ u.primaryBranch = none then .error "validation"
  else if users.any (fun v => v.email == u.email) then .error "E11000 email"
  else if (match u.phone with
           | some ph => users.any (fun v => v.phone == some ph)
           | none => false) then .error "E11000 phone"
  else .ok (users ++ [u])

/-- Observable steps of the simple register handler, in order. -/
inductive RegEvent where
  | respondedExists
  | respondedSuccess
  | saveFailed
deriving DecidableEq, Repr

/-- `POST /register` in `src/routes/userRoutes.js`: the duplicate check
sends a failure response but does **not** `return`, so the handler always
goes on to hash the password and attempt the save.  The result is the
ordered response/attempt trace, the users collection afterwards, and the
document the save was attempted with. -/
def registerSimple (b : RegisterBody) (users : List User) :
    List RegEvent × List User × User :=
  let dupResp := if users.any (fun v => v.email == normEmail b.email) then
      [RegEvent.respondedExists] else []
  let newUser := mkUserFromBody b (bcryptHash b.password)
  match saveUser users newUser with
  | .ok users' => (dupResp ++ [RegEvent.respondedSuccess], users', newUser)
  | .error _ => (dupResp ++ [RegEvent.saveFailed], users, newUser)

/-- `req.body.phone ? String(req.body.phone).trim() : undefined`. -/
def optPhone (p : Option String) : Option String :=
  match p with
  | some ph => if ph = "" then none else some (jsTrim ph)
  | none => none

/-- The `safeBody` document of the fuller register: role forced to `'user'`,
no role/status/branch fields taken from the request. -/
def mkSafeUser (b : RegisterBody) : User :=
  { name := jsTrim b.name
    email := normEmail b.email
    phone := optPhone b.phone
    password := bcryptHash b.password
    role := "user"
    primaryBranch := none
    branches := [] }

/-- `POST /register` in the fuller users router: required-field check, a
`safeBody` that forces `role := 'user'` and drops every branch/role field
from the request, explicit duplicate check (409), then the save. -/
def registerSafe (b : RegisterBody) (users : List User) :
    Except (Nat × String) (List User × User) :=
  if jsTrim b.name = "" ∨ normEmail b.email = "" ∨ b.password = "" then
    .error (400, "Name, email and password are required.")
  else
    if users.any (fun v => v.email == normEmail b.email ||
        (match optPhone b.phone with
         | some ph => v.phone == some ph
         | none => false)) then
      .error (409, "already registered")
    else
      match saveUser users (mkSafeUser b) with
      | .ok users' => .ok (users', mkSafeUser b)
      | .error _ => .error (409, "Account already exists.")

/-- A registration request that tries to self-assign the admin role and a
branch. -/
def exAdminRegBody : RegisterBody :=
  { name := "Eve", email := "eve@example.com", phone := none, password := "pw",
    role := some "admin", primaryBranch := some "branch1", branches := ["branch1"] }

/-- The same request without any role field. -/
def exPlainRegBody : RegisterBody :=
  { name := "Eve", email := "eve@example.com", phone := none, password := "pw",
    role := none, primaryBranch := none, branches := [] }

/-- An existing user holding the email the duplicate-register test reuses. -/
def exExistingUser : User :=
  { name := "Eve", email := "eve@example.com", phone := none,
    password := bcryptHash "old", role := "user", primaryBranch := none, branches := [] }

/-- The user the fuller (safeBody) register stores for `exAdminRegBody`. -/
def exSafeUser : User :=
  { name := "Eve", email := "eve@example.com", phone := none,
    password := bcryptHash "pw", role := "user", primaryBranch := none, branches := [] }

/-- A role-less registration that carries a primary branch. -/
def exStaffRegBody : RegisterBody :=
  { name := "Eve", email := "eve@example.com", phone := none, password := "pw",
    role := none, primaryBranch := some "branch1", branches := [] }

/-- The user the simple register stores for `exStaffRegBody` (schema default
role `'staff'`). -/
def exStaffUser : User :=
  { name := "Eve", email := "eve@example.com", phone := none,
    password := bcryptHash "pw", role := "staff", primaryBranch := some "branch1",
    branches := [] }

/-! ## CSV next-serial computation (forms/serial proxy router) -/

/-- The custom minimal CSV parser (`parseCsv`): one pass with the loop state
`(inQuotes, col, row, rows)`; handles quoted fields, doubled quotes, commas
and CR/LF/CRLF row breaks. -/
def parseCsvFlush (col : String) (row : List String)
    (rows : List (List String)) : List (List String) :=
  if col ≠ "" ∨ row ≠ [] then rows ++ [row ++ [col]] else rows

/-- The loop body; `fuel` only bounds the iteration count and never cuts the
run short: every step consumes at least one input character (the quote-pair
and CRLF steps consume two), so starting with `fuel = text.length` the
character list always empties no later than the fuel does. -/
def parseCsvAux : Nat → List Char → Bool → String → List String →
    List (List String) → List (List String)
  | _, [], _, col, row, rows => parseCsvFlush col row rows
  | 0, _ :: _, _, col, row, rows => parseCsvFlush col row rows
  | fuel + 1, '"' :: r@('"' :: rest), inQuotes, col, row, rows =>
    if inQuotes then parseCsvAux fuel rest true (col.push '"') row rows
    else parseCsvAux fuel r true col row rows
  | fuel + 1, '\r' :: r@('\n' :: rest), inQuotes, col, row, rows =>
    if inQuotes then parseCsvAux fuel r inQuotes (col.push '\r') row rows
    else parseCsvAux fuel rest inQuotes "" [] (parseCsvFlush col row rows)
  | fuel + 1, c :: rest, inQuotes, col, row, rows =>
    if c = '"' ∧ ¬inQuotes then parseCsvAux fuel rest true col row rows
    else if c = '"' ∧ inQuotes then parseCsvAux fuel rest false col row rows
    else if c = ',' ∧ ¬inQuotes then
      parseCsvAux fuel rest inQuotes "" (row ++ [col]) rows
    else if (c = '\n' ∨ c = '\r') ∧ ¬inQuotes then
      parseCsvAux fuel rest inQuotes "" [] (parseCsvFlush col row rows)
    else
      parseCsvAux fuel rest inQuotes (col.push c) row rows

def parseCsv (text : String) : List (List String) :=
  parseCsvAux text.data.length text.data false "" [] []

/-- Match a literal word at the front, returning the rest. -/
def matchLit : List Char → List Char → Option (List Char)
  | [], rest => some rest
  | _ :: _, [] => none
  | c :: cs, d :: ds => if d = c then matchLit cs ds else none

/-- `\s*` between pattern words. -/
def skipSpaces (l : List Char) : List Char := l.dropWhile isJsSpace

/-- Match `w1\s*w2\s*…\s*wn\.?` (the final dot allowed only when `optDot`)
against an entire character list; the words are lowercase, the input is
expected lowercased (the `i` regex flag). -/
def matchWordsDot (optDot : Bool) : List String → List Char → Bool
  | [], l => l.isEmpty || (optDot && l = ['.'])
  | w :: rest, l =>
    match matchLit w.data l with
    | none => false
    | some r => matchWordsDot optDot rest (if rest.isEmpty then r else skipSpaces r)

/-- `rxQ = /^(quotation\s*no\.?|quotation\s*number|serial\s*no\.?|serial|quote\s*id)$/i`
on the trimmed header. -/
def rxQmatch (h : String) : Bool :=
  let l := (jsToLower (jsTrim h)).data
  matchWordsDot true ["quotation", "no"] l ||
  matchWordsDot false ["quotation", "number"] l ||
  matchWordsDot true ["serial", "no"] l ||
  matchWordsDot false ["serial"] l ||
  matchWordsDot false ["quote", "id"] l

/-- `rxJ = /^(jc\s*no\.?|jc\s*number|job\s*card\s*no\.?|job\s*card\s*number|serial(?:\s*no\.?)?)$/i`
on the trimmed header. -/
def rxJmatch (h : String) : Bool :=
  let l := (jsToLower (jsTrim h)).data
  matchWordsDot true ["jc", "no"] l ||
  matchWordsDot false ["jc", "number"] l ||
  matchWordsDot true ["job", "card", "no"] l ||
  matchWordsDot false ["job", "card", "number"] l ||
  matchWordsDot false ["serial"] l ||
  matchWordsDot true ["serial", "no"] l

/-- Substring test on character lists. -/
def hasSubstring (pat : List Char) : List Char → Bool
  | [] => pat.isEmpty
  | c :: t => pat.isPrefixOf (c :: t) || hasSubstring pat t

/-- `/serial/i.test(h)`: case-insensitive substring search, no trim. -/
def containsSerial (h : String) : Bool :=
  hasSubstring "serial".data (jsToLower h).data

/-- `findSerialIdx`: index of the first header matching the kind's pattern,
else the first header containing "serial", else `none` (the source's `-1`). -/
def findSerialIdx (headers : List String) (kind : String) : Option Nat :=
  let rx : String → Bool := if kind = "jobcard" then rxJmatch else rxQmatch
  match headers.findIdx? (fun h => rx h) with
  | some i => some i
  | none => headers.findIdx? (fun h => containsSerial h)

/-- Decimal digits to a natural number (JS `parseInt(t, 10)`; the float
precision loss on astronomically long digit strings is out of scope). -/
def digitsToNat (l : List Char) : Nat :=
  l.foldl (fun acc c => acc * 10 + (c.toNat - 48)) 0

/-- `parseIntStrict`: trim, require `/^\d+$/`, parse. -/
def parseIntStrict (s : String) : Option Nat :=
  let t := jsTrim s
  if t.data ≠ [] ∧ t.data.all (fun c => 48 ≤ c.toNat ∧ c.toNat ≤ 57) then
    some (digitsToNat t.data)
  else none

/-- The backward scan of `nextSerialFromCsv`: for `i = rows.length-1 … 1`,
the first strictly-numeric cell of the serial column (an out-of-range index
reads as `''`, the JS `String(undefined || '')`). -/
def backwardScan (rows : List (List String)) (idx : Nat) : Option Nat :=
  (rows.drop 1).reverse.findSome? (fun r => parseIntStrict (r.getD idx ""))

/-- The full-scan fallback of `nextSerialFromCsv`: maximum numeric cell of
the serial column over the data rows, `0` if none. -/
def columnMax (rows : List (List String)) (idx : Nat) : Nat :=
  (rows.drop 1).foldl
    (fun mx r => match parseIntStrict (r.getD idx "") with
      | some n => if n > mx then n else mx
      | none => mx) 0

/-- `nextSerialFromCsv` after the fetch, on the parsed rows. -/
def nextSerialFromRows (rows : List (List String)) (kind : String) : String :=
  if rows = [] then "1"
  else
    match findSerialIdx (rows.headD []) kind with
    | none => "1"
    | some idx =>
      match backwardScan rows idx with
      | some n => toString (n + 1)
      | none => toString (columnMax rows idx + 1)

def nextSerialFromCsv (csv : String) (kind : String) : String :=
  nextSerialFromRows (parseCsv csv) kind

/-- `GET /quotation/next-serial`: without a configured CSV URL the handler
answers the fallback `'1'`; otherwise it computes from the fetched CSV text
(the fetch result is a parameter here). -/
def quotationNextSerial (csvUrl : Option String) (fetched : String) : String :=
  match csvUrl with
  | none => "1"
  | some _ => nextSerialFromCsv fetched "quotation"

/-! ## Webhook proxy idempotency (booking webhook route) -/

def IDEMPOTENCY_TTL_MS : Nat := 10 * 60 * 1000

/-- The module-level `recentSerials` map (key → timestamp) together with the
clock, as the webhook route's mutable state. -/
structure WebhookSt where
  recent : List (String × Nat)
  now : Nat
deriving Repr, DecidableEq

def mapGet (m : List (String × Nat)) (k : String) : Option Nat :=
  (m.find? (fun e => e.1 == k)).map (fun e => e.2)

/-- `Map.set`: overwrite an existing key in place, else append. -/
def mapSet (m : List (String × Nat)) (k : String) (v : Nat) :
    List (String × Nat) :=
  if m.any (fun e => e.1 == k) then
    m.map (fun e => if e.1 == k then (k, v) else e)
  else m ++ [(k, v)]

/-- `isDuplicateSerial`: a falsy key is never a duplicate; otherwise the
stored timestamp must be truthy and younger than the TTL. -/
def isDuplicateSerial (st : WebhookSt) (key : String) : Bool :=
  if key = "" then false
  else
    match mapGet st.recent key with
    | some ts => ts != 0 && st.now - ts < IDEMPOTENCY_TTL_MS
    | none => false

/-- `markSerial`: record the key at the current time, pruning entries older
than the TTL when the map has grown past 2000 entries. -/
def markSerial (st : WebhookSt) (key : String) : WebhookSt :=
  if key = "" then st
  else
    let m := mapSet st.recent key st.now
    if m.length > 2000 then
      { st with recent := m.filter (fun e => !(e.2 < st.now - IDEMPOTENCY_TTL_MS)) }
    else { st with recent := m }

/-- The four payload shapes `extractSerial` probes, flattened: `data.serialNo`,
`serialNo`, `formValues.serialNo`, `payload.formValues.serialNo`. -/
structure WebhookPayload where
  dataSerialNo : Option String
  serialNo : Option String
  formValuesSerialNo : Option String
  payloadFormValuesSerialNo : Option String
deriving Repr, DecidableEq

/-- JS truthiness of an optional string field. -/
def truthyOptStr : Option String → Bool
  | some s => s != ""
  | none => false

/-- `extractSerial`: first truthy shape wins, else `null`. -/
def extractSerial (p : Option WebhookPayload) : Option String :=
  match p with
  | none => none
  | some obj =>
    if truthyOptStr obj.dataSerialNo then obj.dataSerialNo
    else if truthyOptStr obj.serialNo then obj.serialNo
    else if truthyOptStr obj.formValuesSerialNo then obj.formValuesSerialNo
    else if truthyOptStr obj.payloadFormValuesSerialNo then obj.payloadFormValuesSerialNo
    else none

/-- Outcome of the forwarded `axios` call: a resolved response with some HTTP
status (`validateStatus: () => true` never rejects on status), or a thrown
network error landing in the route's `catch`. -/
inductive ForwardOutcome where
  | status (code : Nat)
  | netError
deriving Repr, DecidableEq

/-- `String(resp.status).startsWith('2')`. -/
def statusStartsWith2 (code : Nat) : Bool :=
  (toString code).data.head? == some '2'

/-- What the route answered: the HTTP status of the proxy's own response, the
truthiness of the `forwarded` field, and of `duplicateSuppressed`. -/
structure WebhookResult where
  httpStatus : Nat
  forwarded : Bool
  duplicateSuppressed : Bool
deriving Repr, DecidableEq

/-- `POST /booking/webhook` (POST method path; the GET path differs only by
an 8-second response cache in front of the forward and the same
mark-on-2xx logic after it): 400 without a `webhookUrl`; suppress when the
extracted serial is a live duplicate; otherwise forward, and only a 2xx
response marks the serial — a non-2xx answers 502 and a thrown error 500,
both leaving `recentSerials` untouched. -/
def bookingWebhook (webhookUrl : String) (p : Option WebhookPayload)
    (outcome : ForwardOutcome) (st : WebhookSt) : WebhookResult × WebhookSt :=
  if webhookUrl = "" then
    ({ httpStatus := 400, forwarded := false, duplicateSuppressed := false }, st)
  else
    let serialKey := extractSerial p
    if (match serialKey with
        | some k => isDuplicateSerial st k
        | none => false) then
      ({ httpStatus := 200, forwarded := false, duplicateSuppressed := true }, st)
    else
      match outcome with
      | .netError =>
        ({ httpStatus := 500, forwarded := false, duplicateSuppressed := false }, st)
      | .status code =>
        if statusStartsWith2 code then
          let st' := match serialKey with
            | some k => markSerial st k
            | none => st
          ({ httpStatus := 200, forwarded := true, duplicateSuppressed := false }, st')
        else
          ({ httpStatus := 502, forwarded := false, duplicateSuppressed := false }, st)

/-- Fixture: a quotation-save payload carrying serial `Q1` in `data.serialNo`. -/
def exWebPayload : WebhookPayload :=
  { dataSerialNo := some "Q1"
    serialNo := none
    formValuesSerialNo := none
    payloadFormValuesSerialNo := none }

/-- Fixture: webhook state with an empty `recentSerials` map at time 100. -/
def exWebSt : WebhookSt := { recent := [], now := 100 }

/-! ## Theorems -/

theorem toLowerChar_of_lowerAlnum {c : Char} (h : isLowerAlnum c) :
    toLowerChar c = c := by
  simp only [isLowerAlnum, decide_eq_true_eq] at h
  simp only [toLowerChar, ite_eq_right_iff]
  intro hc
  omega

theorem nfkdChar_of_lowerAlnum {c : Char} (h : isLowerAlnum c) :
    nfkdChar c = [c] := by
  simp only [isLowerAlnum, decide_eq_true_eq] at h
  have h122 : c.toNat ≤ 122 := by omega
  have h1 : c ≠ 'é' := by rintro rfl; revert h122; decide
  have h2 : c ≠ 'è' := by rintro rfl; revert h122; decide
  have h3 : c ≠ 'ü' := by rintro rfl; revert h122; decide
  have h4 : c ≠ 'ñ' := by rintro rfl; revert h122; decide
  simp [nfkdChar, h1, h2, h3, h4]

theorem normalizeChars_fixed {l : List Char} (h : ∀ c ∈ l, isLowerAlnum c) :
    normalizeChars l = l := by
  induction l with
  | nil => rfl
  | cons c t ih =>
    have hc : isLowerAlnum c := h c (List.mem_cons_self c t)
    have ht : ∀ x ∈ t, isLowerAlnum x := fun x hx => h x (List.mem_cons_of_mem c hx)
    simp only [normalizeChars, List.map_cons, List.flatten_cons,
      toLowerChar_of_lowerAlnum hc, nfkdChar_of_lowerAlnum hc,
      List.singleton_append, List.filter_cons, hc, if_true]
    exact congrArg (c :: ·) (ih ht)

theorem normalizeChars_mem {l : List Char} :
    ∀ c ∈ normalizeChars l, isLowerAlnum c := by
  intro c hc
  exact (List.mem_filter.mp hc).2

theorem normalize_idem (s : String) : normalize (normalize s) = normalize s := by
  unfold normalize
  exact congrArg String.mk (normalizeChars_fixed normalizeChars_mem)

theorem toNat_charOfNat_small {n : Nat} (h : n < 128) : (Char.ofNat n).toNat = n := by
  have h' : n < 55296 ∨ 57343 < n ∧ n < 1114112 := Or.inl (by omega)
  simp [Char.ofNat, dif_pos h', Char.ofNatAux, Char.toNat, UInt32.toNat, BitVec.ofNatLt]

theorem toUpperChar_toNat_of_range {c : Char} (h1 : 97 ≤ c.toNat) (h2 : c.toNat ≤ 122) :
    (toUpperChar c).toNat = c.toNat - 32 := by
  unfold toUpperChar
  rw [if_pos ⟨h1, h2⟩]
  exact toNat_charOfNat_small (by omega)

theorem toUpperChar_eq_self {c : Char} (h : ¬(97 ≤ c.toNat ∧ c.toNat ≤ 122)) :
    toUpperChar c = c := by
  unfold toUpperChar
  rw [if_neg h]

theorem isJsSpace_toUpperChar (c : Char) : isJsSpace (toUpperChar c) = isJsSpace c := by
  by_cases h : 97 ≤ c.toNat ∧ c.toNat ≤ 122
  · have ht := toUpperChar_toNat_of_range h.1 h.2
    have hl : isJsSpace (toUpperChar c) = false := by
      simp only [isJsSpace, ht, Bool.or_eq_false_iff, decide_eq_false_iff_not]
      omega
    have hr : isJsSpace c = false := by
      simp only [isJsSpace, Bool.or_eq_false_iff, decide_eq_false_iff_not]
      omega
    rw [hl, hr]
  · rw [toUpperChar_eq_self h]

theorem toUpperChar_idem (c : Char) : toUpperChar (toUpperChar c) = toUpperChar c := by
  by_cases h : 97 ≤ c.toNat ∧ c.toNat ≤ 122
  · have ht := toUpperChar_toNat_of_range h.1 h.2
    apply toUpperChar_eq_self
    rw [ht]
    omega
  · rw [toUpperChar_eq_self h]
    exact toUpperChar_eq_self h

theorem dropWhile_self_dropWhile (p : Char → Bool) :
    ∀ l : List Char, (l.dropWhile p).dropWhile p = l.dropWhile p := by
  intro l
  induction l with
  | nil => rfl
  | cons c t ih =>
    by_cases h : p c = true
    · simp [List.dropWhile_cons, h, ih]
    · simp [List.dropWhile_cons, h]

theorem dropWhile_head_false (p : Char → Bool) :
    ∀ (l : List Char) (c : Char) (t : List Char),
      l.dropWhile p = c :: t → p c = false := by
  intro l
  induction l with
  | nil => intro c t h; simp at h
  | cons a l ih =>
    intro c t h
    by_cases ha : p a = true
    · rw [List.dropWhile_cons, if_pos ha] at h
      exact ih c t h
    · rw [List.dropWhile_cons, if_neg ha] at h
      injection h with h1 h2
      subst h1
      simpa using ha

theorem dropWhile_trimChars (l : List Char) :
    (trimChars l).dropWhile isJsSpace = trimChars l := by
  unfold trimChars
  cases hX : l.dropWhile isJsSpace with
  | nil => simp
  | cons c t =>
    have hc : isJsSpace c = false := dropWhile_head_false isJsSpace l c t hX
    rw [List.reverse_cons, List.dropWhile_append]
    by_cases he : (t.reverse.dropWhile isJsSpace).isEmpty = true
    · simp [he, List.dropWhile_cons, hc]
    · simp only [he, Bool.false_eq_true, if_false]
      rw [List.reverse_append]
      simp [List.dropWhile_cons, hc]

theorem trimChars_idem (l : List Char) : trimChars (trimChars l) = trimChars l := by
  show ((((trimChars l).dropWhile isJsSpace).reverse).dropWhile isJsSpace).reverse = trimChars l
  rw [dropWhile_trimChars]
  unfold trimChars
  rw [List.reverse_reverse, dropWhile_self_dropWhile]

theorem trimChars_map_toUpper (l : List Char) :
    trimChars (l.map toUpperChar) = (trimChars l).map toUpperChar := by
  have hpf : (isJsSpace ∘ toUpperChar) = isJsSpace := funext isJsSpace_toUpperChar
  unfold trimChars
  rw [List.dropWhile_map, hpf, ← List.map_reverse, List.dropWhile_map, hpf, ← List.map_reverse]

theorem map_toUpperChar_idem (l : List Char) :
    (l.map toUpperChar).map toUpperChar = l.map toUpperChar := by
  rw [List.map_map]
  exact List.map_congr_left fun c _ => toUpperChar_idem c

/-- `s.trim().toUpperCase()` is idempotent: re-normalizing an
already-normalized chassis number changes nothing. -/
theorem upperTrim_idem (s : String) :
    jsToUpper (jsTrim (jsToUpper (jsTrim s))) = jsToUpper (jsTrim s) := by
  show String.mk (List.map toUpperChar (trimChars (List.map toUpperChar (trimChars s.data)))) =
    String.mk (List.map toUpperChar (trimChars s.data))
  rw [trimChars_map_toUpper, trimChars_idem, map_toUpperChar_idem]

theorem find?_map_replace {ch : String} {doc : Stock} :
    ∀ l : List Stock, l.any (fun s => s.chassisNo == ch) = true → doc.chassisNo = ch →
      (l.map (fun s => if s.chassisNo == ch then doc else s)).find?
        (fun s => s.chassisNo == ch) = some doc := by
  intro l
  induction l with
  | nil => intro h; simp at h
  | cons s t ih =>
    intro hany hdoc
    by_cases hs : s.chassisNo = ch
    · simp [List.find?_cons, hs, hdoc]
    · have ht : t.any (fun s => s.chassisNo == ch) = true := by
        simpa [List.any_cons, hs] using hany
      simpa [List.find?_cons, hs] using ih ht hdoc

theorem find?_append_right {ch : String} {doc : Stock} :
    ∀ l : List Stock, l.any (fun s => s.chassisNo == ch) = false → doc.chassisNo = ch →
      (l ++ [doc]).find? (fun s => s.chassisNo == ch) = some doc := by
  intro l
  induction l with
  | nil =>
    intro _ hdoc
    simp [List.find?_cons, hdoc]
  | cons s t ih =>
    intro hany hdoc
    have hs : ¬ (s.chassisNo = ch) := by
      intro hc
      simp [List.any_cons, hc] at hany
    have ht : t.any (fun s => s.chassisNo == ch) = false := by
      simpa [List.any_cons, hs] using hany
    simpa [List.find?_cons, hs] using ih ht hdoc

theorem findStock_upsertStock {stocks : List Stock} {ch : String} {doc : Stock}
    (hdoc : doc.chassisNo = ch) :
    findStock (upsertStock ch doc stocks) ch = some doc := by
  unfold upsertStock findStock
  by_cases hany : stocks.any (fun s => s.chassisNo == ch) = true
  · rw [if_pos hany]
    exact find?_map_replace stocks hany hdoc
  · simp only [Bool.not_eq_true] at hany
    rw [hany]
    simp only [Bool.false_eq_true, if_false]
    exact find?_append_right stocks hany hdoc

theorem jsOr_of_ne {a : String} (b : String) (h : a ≠ "") : jsOr a b = a := by
  unfold jsOr
  rw [if_neg h]

theorem jsOr_empty (b : String) : jsOr "" b = b := rfl

theorem transferNextBranch_pending {m : Movement} {existing : Option Stock}
    (h : m.transferStatus = "pending" ∨ m.transferStatus = "rejected")
    (hsrc : m.sourceBranch ≠ "") :
    transferNextBranch m existing = m.sourceBranch := by
  unfold transferNextBranch
  rcases h with h | h <;>
  · rw [h]
    simp only [show (jsToLower (jsOr "pending" "completed") = "admitted" ||
        jsToLower (jsOr "pending" "completed") = "completed") = false from by decide,
      show (jsToLower (jsOr "rejected" "completed") = "admitted" ||
        jsToLower (jsOr "rejected" "completed") = "completed") = false from by decide,
      Bool.false_eq_true, if_false]
    exact jsOr_of_ne _ hsrc

theorem transferNextBranch_admitted {m : Movement} {existing : Option Stock}
    (h : m.transferStatus = "admitted") (htgt : m.targetBranch ≠ "") :
    transferNextBranch m existing = m.targetBranch := by
  unfold transferNextBranch
  rw [h]
  simp only [show (jsToLower (jsOr "admitted" "completed") = "admitted" ||
      jsToLower (jsOr "admitted" "completed") = "completed") = true from by decide, if_true]
  exact jsOr_of_ne _ htgt

theorem applyStockDoc_transfer_eq {m : Movement} {existing : Option Stock}
    (hact : m.action = "transfer") (hne : jsToUpper (jsTrim m.chassisNo) ≠ "") :
    applyStockDoc m existing =
      some { setVehicle m (existing.getD (blankStock (jsToUpper (jsTrim m.chassisNo)))) with
             sourceBranch := transferNextBranch m existing,
             lastSourceBranch := transferPrevBranch m existing,
             status := "in_stock", lastMovementId := m.movementId } := by
  simp only [applyStockDoc, hact]
  rw [if_neg hne,
    if_neg (show ¬ (jsToLower "transfer" = "add") from by decide),
    if_pos (show jsToLower "transfer" = "transfer" from by decide)]

theorem findStock_chassisNo {stocks : List Stock} {ch : String} {e : Stock}
    (h : findStock stocks ch = some e) : e.chassisNo = ch := by
  unfold findStock at h
  have := List.find?_some h
  simpa using this

theorem findStock_apply_transfer {m : Movement} {stocks : List Stock}
    (hact : m.action = "transfer")
    (hch : jsToUpper (jsTrim m.chassisNo) = m.chassisNo) (hne : m.chassisNo ≠ "") :
    findStock (applyMovementToStock m stocks) m.chassisNo =
      some { setVehicle m ((findStock stocks m.chassisNo).getD (blankStock m.chassisNo)) with
             sourceBranch := transferNextBranch m (findStock stocks m.chassisNo),
             lastSourceBranch := transferPrevBranch m (findStock stocks m.chassisNo),
             status := "in_stock", lastMovementId := m.movementId } := by
  simp only [applyMovementToStock]
  rw [hch]
  rw [applyStockDoc_transfer_eq hact (by rw [hch]; exact hne), hch]
  apply findStock_upsertStock
  cases hex : findStock stocks m.chassisNo with
  | none => rfl
  | some e =>
    show e.chassisNo = m.chassisNo
    exact findStock_chassisNo hex

theorem forceSource_fields (cb : Option String) (p : Movement) :
    (forceSource cb p).chassisNo = p.chassisNo ∧ (forceSource cb p).action = p.action ∧
    (forceSource cb p).targetBranch = p.targetBranch ∧
    (forceSource cb p).movementId = p.movementId ∧
    (forceSource cb p).createdAt = p.createdAt ∧
    (forceSource cb p).deleted = p.deleted := by
  unfold forceSource
  cases cb with
  | none => exact ⟨rfl, rfl, rfl, rfl, rfl, rfl⟩
  | some c =>
    by_cases h : p.sourceBranch ≠ c <;> simp [h]

/-- Output spec of the transfer block: chassis, action, target, id and
creation fields pass through; the status is `pending` exactly for transfers. -/
theorem transferBlock_ok_spec {cb : Option String} {ms : List Movement}
    {p q : Movement} (h : transferBlock cb ms p = .ok q) :
    q.chassisNo = p.chassisNo ∧ q.action = p.action ∧ q.targetBranch = p.targetBranch ∧
      q.movementId = p.movementId ∧ q.createdAt = p.createdAt ∧ q.deleted = p.deleted ∧
      q.transferStatus = (if p.action = "transfer" then "pending" else "completed") := by
  unfold transferBlock at h
  by_cases hact : p.action = "transfer"
  · rw [if_pos hact] at h
    dsimp only at h
    split at h
    · exact absurd h (by simp)
    · split at h
      · exact absurd h (by simp)
      · split at h
        · exact absurd h (by simp)
        · rw [Except.ok.injEq] at h
          subst h
          obtain ⟨h1, h2, h3, h4, h5, h6⟩ := forceSource_fields cb p
          exact ⟨h1, h2, h3, h4, h5, h6, by rw [if_pos hact]⟩
  · rw [if_neg hact, Except.ok.injEq] at h
    subst h
    exact ⟨rfl, rfl, rfl, rfl, rfl, rfl, by rw [if_neg hact]⟩

/-- Output spec of the add block: chassis, id, creation fields and the
`completed` pre-status pass through. -/
theorem addBlock_ok_spec {rq : Requester} {stocks : List Stock}
    {p q : Movement} (h : addBlock rq stocks p = .ok q) :
    q.chassisNo = p.chassisNo ∧ q.movementId = p.movementId ∧
      q.createdAt = p.createdAt ∧ q.deleted = p.deleted ∧
      q.transferStatus = p.transferStatus := by
  unfold addBlock at h
  split at h
  · split at h
    · exact absurd h (by simp)
    · split at h
      · rw [Except.ok.injEq] at h
        subst h
        exact ⟨rfl, rfl, rfl, rfl, rfl⟩
      · dsimp only at h
        split at h
        · split at h
          · exact absurd h (by simp)
          · rw [Except.ok.injEq] at h
            subst h
            exact ⟨rfl, rfl, rfl, rfl, rfl⟩
        · exact absurd h (by simp)
  · rw [Except.ok.injEq] at h
    subst h
    exact ⟨rfl, rfl, rfl, rfl, rfl⟩

/-- Elimination principle for a successful `POST /`: the created movement is
the output of the transfer block over the add block over the auto-convert of
the constructed payload, the payload's chassis is nonblank, and the new state
appends the movement to the ledger and re-applies it to the snapshot. -/
theorem createMovement_ok_elim {rq : Requester} {b : Body} {st : ServerSt}
    {m : Movement} {st' : ServerSt}
    (h : createMovement rq b st = .ok (m, st')) :
    (mkPayload rq b st.nextId st.now).chassisNo ≠ "" ∧
    ∃ p2, addBlock rq st.stocks
        (ledgerAutoConvert rq
          ((latestNonDeleted st.movements (mkPayload rq b st.nextId st.now).chassisNo).bind
            deriveCurrentBranch)
          (mkPayload rq b st.nextId st.now)) = .ok p2 ∧
      transferBlock
        ((latestNonDeleted st.movements (mkPayload rq b st.nextId st.now).chassisNo).bind
          deriveCurrentBranch) st.movements p2 = .ok m ∧
      st' = { movements := st.movements ++ [m], stocks := applyMovementToStock m st.stocks,
              nextId := st.nextId + 1, now := st.now + 1 } := by
  simp only [createMovement] at h
  split at h
  · exact absurd h (by simp)
  · rename_i hch
    refine ⟨hch, ?_⟩
    split at h
    · exact absurd h (by simp)
    · rename_i p2 hp2
      split at h
      · exact absurd h (by simp)
      · rename_i p3 hp3
        split at h
        · exact absurd h (by simp)
        · split at h
          · exact absurd h (by simp)
          · rw [Except.ok.injEq, Prod.mk.injEq] at h
            obtain ⟨h1, h2⟩ := h
            subst h1
            exact ⟨p2, hp2, hp3, h2.symm⟩

theorem ledgerAutoConvert_chassisNo (rq : Requester) (cb : Option String) (p : Movement) :
    (ledgerAutoConvert rq cb p).chassisNo = p.chassisNo := by
  unfold ledgerAutoConvert
  cases cb with
  | none => rfl
  | some c =>
    dsimp only
    split
    · split <;> rfl
    · rfl

/-- Elimination principle for a successful `POST /:id/admit`. -/
theorem admitTransfer_ok_elim {rq : Requester} {id : Nat} {note : String} {st : ServerSt}
    {m' : Movement} {st' : ServerSt} (h : admitTransfer rq id note st = .ok (m', st')) :
    ∃ mv, st.movements.find? (fun m => m.movementId == id && !m.deleted) = some mv ∧
      mv.action = "transfer" ∧
      jsToLower (jsOr mv.transferStatus "completed") = "pending" ∧
      m' = { mv with
             transferStatus := "admitted", resolvedAt := some st.now,
             resolvedBy := some rq.userId, resolvedByName := some (jsOr rq.name "user"),
             notes := appendResolution mv.notes "Admit" (jsTrim note) } ∧
      st' = { st with
        movements := st.movements.map (fun m => if m.movementId == id then m' else m),
        stocks := applyMovementToStock m' st.stocks, now := st.now + 1 } := by
  unfold admitTransfer at h
  split at h
  · exact absurd h (by simp)
  · rename_i mv hfind
    split at h
    · exact absurd h (by simp)
    · rename_i hact
      split at h
      · exact absurd h (by simp)
      · rename_i hstat
        dsimp only at h
        split at h
        · exact absurd h (by simp)
        · rw [Except.ok.injEq, Prod.mk.injEq] at h
          obtain ⟨h1, h2⟩ := h
          exact ⟨mv, hfind, not_not.mp hact, not_not.mp hstat, h1.symm,
            by rw [← h1]; exact h2.symm⟩

/-- Elimination principle for a successful `POST /:id/reject`. -/
theorem rejectTransfer_ok_elim {rq : Requester} {id : Nat} {reason : String} {st : ServerSt}
    {m' : Movement} {st' : ServerSt} (h : rejectTransfer rq id reason st = .ok (m', st')) :
    ∃ mv, st.movements.find? (fun m => m.movementId == id && !m.deleted) = some mv ∧
      mv.action = "transfer" ∧
      jsToLower (jsOr mv.transferStatus "completed") = "pending" ∧
      m' = { mv with
             transferStatus := "rejected", resolvedAt := some st.now,
             resolvedBy := some rq.userId, resolvedByName := some (jsOr rq.name "user"),
             notes := appendResolution mv.notes "Reject" (jsTrim reason) } ∧
      st' = { st with
        movements := st.movements.map (fun m => if m.movementId == id then m' else m),
        stocks := applyMovementToStock m' st.stocks, now := st.now + 1 } := by
  unfold rejectTransfer at h
  split at h
  · exact absurd h (by simp)
  · rename_i mv hfind
    split at h
    · exact absurd h (by simp)
    · rename_i hact
      split at h
      · exact absurd h (by simp)
      · rename_i hstat
        dsimp only at h
        split at h
        · exact absurd h (by simp)
        · rw [Except.ok.injEq, Prod.mk.injEq] at h
          obtain ⟨h1, h2⟩ := h
          exact ⟨mv, hfind, not_not.mp hact, not_not.mp hstat, h1.symm,
            by rw [← h1]; exact h2.symm⟩

/-- **C1** Transfer workflow state machine.
(1) A successfully created transfer from branch A (= the created movement's
`sourceBranch`) to branch B has `transferStatus = 'pending'` and leaves the
Stock snapshot's `sourceBranch` at A.
(2) Admitting a pending transfer sets `transferStatus = 'admitted'`, sets
`resolvedBy`/`resolvedAt`, and relocates the snapshot to the target branch B.
(3) Rejecting it instead sets `transferStatus = 'rejected'`, sets
`resolvedBy`/`resolvedAt`, and leaves the snapshot at A.
(4) An admit or reject request for a movement whose `transferStatus` is not
`pending` answers HTTP 400 "Transfer already resolved". -/
theorem transfer_workflow_state_machine :
    (∀ (rq : Requester) (b : Body) (st : ServerSt) (m : Movement) (st' : ServerSt),
      createMovement rq b st = .ok (m, st') → m.action = "transfer" →
      m.sourceBranch ≠ "" →
      m.transferStatus = "pending" ∧
        (findStock st'.stocks m.chassisNo).map (·.sourceBranch) = some m.sourceBranch) ∧
    (∀ (rq : Requester) (id : Nat) (note : String) (st : ServerSt)
        (m' : Movement) (st' : ServerSt),
      admitTransfer rq id note st = .ok (m', st') →
      m'.transferStatus = "admitted" ∧ m'.resolvedBy = some rq.userId ∧
        m'.resolvedAt = some st.now ∧
        (m'.targetBranch ≠ "" → jsToUpper (jsTrim m'.chassisNo) = m'.chassisNo →
          m'.chassisNo ≠ "" →
          (findStock st'.stocks m'.chassisNo).map (·.sourceBranch) = some m'.targetBranch)) ∧
    (∀ (rq : Requester) (id : Nat) (reason : String) (st : ServerSt)
        (m' : Movement) (st' : ServerSt),
      rejectTransfer rq id reason st = .ok (m', st') →
      m'.transferStatus = "rejected" ∧ m'.resolvedBy = some rq.userId ∧
        m'.resolvedAt = some st.now ∧
        (m'.sourceBranch ≠ "" → jsToUpper (jsTrim m'.chassisNo) = m'.chassisNo →
          m'.chassisNo ≠ "" →
          (findStock st'.stocks m'.chassisNo).map (·.sourceBranch) = some m'.sourceBranch)) ∧
    (∀ (rq : Requester) (id : Nat) (note : String) (st : ServerSt) (mv : Movement),
      st.movements.find? (fun m => m.movementId == id && !m.deleted) = some mv →
      mv.action = "transfer" →
      jsToLower (jsOr mv.transferStatus "completed") ≠ "pending" →
      admitTransfer rq id note st = .error ⟨400, "Transfer already resolved"⟩ ∧
        rejectTransfer rq id note st = .error ⟨400, "Transfer already resolved"⟩) := by
  refine ⟨?_, ?_, ?_, ?_⟩
  · intro rq b st m st' hcreate hact hsrc
    obtain ⟨hch0, p2, hadd, htr, hst⟩ := createMovement_ok_elim hcreate
    obtain ⟨e1, _, _, _, _, _, e7⟩ := transferBlock_ok_spec htr
    obtain ⟨a1, _, _, _, _⟩ := addBlock_ok_spec hadd
    have hchasP : m.chassisNo = (mkPayload rq b st.nextId st.now).chassisNo := by
      rw [e1, a1, ledgerAutoConvert_chassisNo]
    have hchN : jsToUpper (jsTrim m.chassisNo) = m.chassisNo := by
      rw [hchasP]
      exact upperTrim_idem (fromOf b).chassisNo
    have hne : m.chassisNo ≠ "" := by rw [hchasP]; exact hch0
    have hp2act : p2.action = "transfer" := by
      have e2 := (transferBlock_ok_spec htr).2.1
      rw [← e2]; exact hact
    have hstatus : m.transferStatus = "pending" := by rw [e7, if_pos hp2act]
    refine ⟨hstatus, ?_⟩
    subst hst
    rw [findStock_apply_transfer hact hchN hne]
    rw [Option.map_some']
    show some (transferNextBranch m (findStock st.stocks m.chassisNo)) = _
    rw [transferNextBranch_pending (Or.inl hstatus) hsrc]
  · intro rq id note st m' st' h
    obtain ⟨mv, _, hmvact, _, hm', hst'⟩ := admitTransfer_ok_elim h
    have hact' : m'.action = "transfer" := by rw [hm']; exact hmvact
    have hstat' : m'.transferStatus = "admitted" := by rw [hm']
    refine ⟨hstat', by rw [hm'], by rw [hm'], ?_⟩
    intro htgt hchN hne
    subst hst'
    rw [findStock_apply_transfer hact' hchN hne]
    rw [Option.map_some']
    show some (transferNextBranch m' (findStock st.stocks m'.chassisNo)) = _
    rw [transferNextBranch_admitted hstat' htgt]
  · intro rq id reason st m' st' h
    obtain ⟨mv, _, hmvact, _, hm', hst'⟩ := rejectTransfer_ok_elim h
    have hact' : m'.action = "transfer" := by rw [hm']; exact hmvact
    have hstat' : m'.transferStatus = "rejected" := by rw [hm']
    refine ⟨hstat', by rw [hm'], by rw [hm'], ?_⟩
    intro hsrc hchN hne
    subst hst'
    rw [findStock_apply_transfer hact' hchN hne]
    rw [Option.map_some']
    show some (transferNextBranch m' (findStock st.stocks m'.chassisNo)) = _
    rw [transferNextBranch_pending (Or.inr hstat') hsrc]
  · intro rq id note st mv hfind hmvact hstat
    constructor
    · unfold admitTransfer
      rw [hfind]
      dsimp only
      rw [if_neg (not_not_intro hmvact), if_pos hstat]
    · unfold rejectTransfer
      rw [hfind]
      dsimp only
      rw [if_neg (not_not_intro hmvact), if_pos hstat]

/-- Witness for C1 on a concrete run: add x1 to A, open a transfer to B
(snapshot stays at A), then admit (snapshot moves to B) / reject (snapshot
stays at A) / retry on the resolved transfer (400). -/
theorem transfer_workflow_state_machine_witness :
    (exTrMv.transferStatus = "pending" ∧
      (findStock exSt2.stocks exTrMv.chassisNo).map (·.sourceBranch) =
        some exTrMv.sourceBranch) ∧
    (exAdmitMv.transferStatus = "admitted" ∧ exAdmitMv.resolvedBy = some exStaffB.userId ∧
      exAdmitMv.resolvedAt = some exSt2.now ∧
      (findStock exSt3.stocks exAdmitMv.chassisNo).map (·.sourceBranch) =
        some exAdmitMv.targetBranch) ∧
    (exRejectMv.transferStatus = "rejected" ∧
      (findStock exSt3r.stocks exRejectMv.chassisNo).map (·.sourceBranch) =
        some exRejectMv.sourceBranch) ∧
    (admitTransfer exStaffB 2 "" exSt3 = .error ⟨400, "Transfer already resolved"⟩ ∧
      rejectTransfer exStaffB 2 "" exSt3 = .error ⟨400, "Transfer already resolved"⟩) := by
  refine ⟨?_, ?_, ?_, ?_⟩
  · exact transfer_workflow_state_machine.1 exAdmin exTransferBody exSt1 exTrMv exSt2
      (by rfl) rfl (by decide)
  · have h := transfer_workflow_state_machine.2.1 exStaffB 2 "" exSt2 exAdmitMv exSt3 (by rfl)
    exact ⟨h.1, h.2.1, h.2.2.1, h.2.2.2 (by decide) (by decide) (by decide)⟩
  · have h := transfer_workflow_state_machine.2.2.1 exStaffB 2 "" exSt2 exRejectMv exSt3r (by rfl)
    exact ⟨h.1, h.2.2.2 (by decide) (by decide) (by decide)⟩
  · exact transfer_workflow_state_machine.2.2.2 exStaffB 2 "" exSt3 exAdmitMv
      (by rfl) rfl (by decide)

theorem ledgerAutoConvert_converts {rq : Requester} {cb : String} {p : Movement}
    (hact : p.action = "add") (hsrc : p.sourceBranch ≠ "") (hne : p.sourceBranch ≠ cb) :
    ledgerAutoConvert rq (some cb) p =
      { p with action := "transfer", sourceBranch := cb, targetBranch := p.sourceBranch,
               notes := appendAutoNote p.notes } := by
  unfold ledgerAutoConvert
  dsimp only
  rw [if_pos hact, jsOr_of_ne _ hsrc, if_pos ⟨hsrc, hne⟩]

theorem ledgerAutoConvert_skip_same {rq : Requester} {cb : String} {p : Movement}
    (hsame : jsOr p.sourceBranch (jsOr rq.userBranch "") = cb) :
    ledgerAutoConvert rq (some cb) p = p := by
  unfold ledgerAutoConvert
  dsimp only
  split
  · rw [if_neg (fun hc => hc.2 hsame)]
  · rfl

theorem ledgerAutoConvert_not_add {rq : Requester} {cb : Option String} {p : Movement}
    (hact : p.action ≠ "add") : ledgerAutoConvert rq cb p = p := by
  unfold ledgerAutoConvert
  cases cb with
  | none => rfl
  | some c =>
    dsimp only
    rw [if_neg hact]

theorem addBlock_skip {rq : Requester} {stocks : List Stock} {p : Movement}
    (hact : p.action ≠ "add") : addBlock rq stocks p = .ok p := by
  unfold addBlock
  rw [if_neg hact]

theorem addBlock_400 {rq : Requester} {stocks : List Stock} {p : Movement}
    (hact : p.action = "add") (hsrc : p.sourceBranch = "") :
    addBlock rq stocks p = .error ⟨400, "Source branch is required for add"⟩ := by
  unfold addBlock
  rw [if_pos hact, if_pos hsrc]

theorem addBlock_409 {rq : Requester} {stocks : List Stock} {p : Movement} {e : Stock}
    (hact : p.action = "add") (hsrc : p.sourceBranch ≠ "")
    (hfind : stocks.find? (fun s => s.chassisNo == p.chassisNo &&
      s.status == "in_stock") = some e)
    (hsame : e.sourceBranch = p.sourceBranch) :
    addBlock rq stocks p = .error ⟨409, "Chassis already exists in this branch"⟩ := by
  unfold addBlock
  rw [if_pos hact, if_neg hsrc, hfind]
  dsimp only
  rw [if_neg]
  intro hc
  exact hc.2 (by rw [jsOr_of_ne _ (hsame ▸ hsrc), hsame])

theorem transferBlock_ok_eval {cb : Option String} {ms : List Movement} {p : Movement}
    (hact : p.action = "transfer") (htgt : p.targetBranch ≠ "")
    (hneq : ¬((forceSource cb p).sourceBranch ≠ "" ∧ (forceSource cb p).targetBranch ≠ "" ∧
      (forceSource cb p).sourceBranch = (forceSource cb p).targetBranch))
    (hpend : hasPendingTransfer ms (forceSource cb p).chassisNo = false) :
    transferBlock cb ms p = .ok { forceSource cb p with transferStatus := "pending" } := by
  unfold transferBlock
  rw [if_pos hact, if_neg htgt]
  dsimp only
  rw [if_neg hneq, hpend]
  simp only [Bool.false_eq_true, if_false]

theorem transferBlock_400_target {cb : Option String} {ms : List Movement} {p : Movement}
    (hact : p.action = "transfer") (htgt : p.targetBranch = "") :
    transferBlock cb ms p = .error ⟨400, "Target branch is required for transfer"⟩ := by
  unfold transferBlock
  rw [if_pos hact, if_pos htgt]

/-- Introduction principle for a successful `POST /`: chaining the pipeline
pieces yields the handler's 201 result. -/
theorem createMovement_ok_intro {rq : Requester} {b : Body} {st : ServerSt}
    {p2 p3 : Movement}
    (hch : (mkPayload rq b st.nextId st.now).chassisNo ≠ "")
    (hadd : addBlock rq st.stocks
      (ledgerAutoConvert rq
        ((latestNonDeleted st.movements (mkPayload rq b st.nextId st.now).chassisNo).bind
          deriveCurrentBranch)
        (mkPayload rq b st.nextId st.now)) = .ok p2)
    (htr : transferBlock
      ((latestNonDeleted st.movements (mkPayload rq b st.nextId st.now).chassisNo).bind
        deriveCurrentBranch) st.movements p2 = .ok p3)
    (hmem : p3.action ∈ ACTIONS)
    (hfresh : st.movements.any (fun m => m.movementId == p3.movementId) = false) :
    createMovement rq b st =
      .ok (p3, { movements := st.movements ++ [p3],
                 stocks := applyMovementToStock p3 st.stocks,
                 nextId := st.nextId + 1, now := st.now + 1 }) := by
  simp only [createMovement]
  rw [if_neg hch, hadd]
  dsimp only
  rw [htr]
  dsimp only
  rw [if_neg (not_not_intro hmem), hfresh]
  simp only [Bool.false_eq_true, if_false]

/-- Introduction principle for a failing `POST /` whose add block rejects. -/
theorem createMovement_err_of_addBlock {rq : Requester} {b : Body} {st : ServerSt}
    {e : HttpError}
    (hch : (mkPayload rq b st.nextId st.now).chassisNo ≠ "")
    (hadd : addBlock rq st.stocks
      (ledgerAutoConvert rq
        ((latestNonDeleted st.movements (mkPayload rq b st.nextId st.now).chassisNo).bind
          deriveCurrentBranch)
        (mkPayload rq b st.nextId st.now)) = .error e) :
    createMovement rq b st = .error e := by
  simp only [createMovement]
  rw [if_neg hch, hadd]

/-- Introduction principle for a failing `POST /` whose transfer block rejects. -/
theorem createMovement_err_of_transferBlock {rq : Requester} {b : Body} {st : ServerSt}
    {p2 : Movement} {e : HttpError}
    (hch : (mkPayload rq b st.nextId st.now).chassisNo ≠ "")
    (hadd : addBlock rq st.stocks
      (ledgerAutoConvert rq
        ((latestNonDeleted st.movements (mkPayload rq b st.nextId st.now).chassisNo).bind
          deriveCurrentBranch)
        (mkPayload rq b st.nextId st.now)) = .ok p2)
    (htr : transferBlock
      ((latestNonDeleted st.movements (mkPayload rq b st.nextId st.now).chassisNo).bind
        deriveCurrentBranch) st.movements p2 = .error e) :
    createMovement rq b st = .error e := by
  simp only [createMovement]
  rw [if_neg hch, hadd]
  dsimp only
  rw [htr]

theorem stepOp_create_of_error {rq : Requester} {b : Body} {st : ServerSt} {e : HttpError}
    (h : createMovement rq b st = .error e) :
    stepOp st (.createOp rq b) = st := by
  simp only [stepOp, h, Except.map, Except.toOption, Option.getD]

/-- **C2** Duplicate-add handling on movement creation.
(1) An `add` for a chassis whose in-stock snapshot sits in a different branch
(and whose ledger agrees) is converted to a transfer: source = the snapshot's
branch, target = the requested destination, an auto note appended, created as
a pending transfer.
(2) An `add` whose destination equals the snapshot's current branch is
rejected with HTTP 409 "Chassis already exists in this branch" and the state
is unchanged.
(3) An `add` carrying no source branch (for a chassis with no current branch)
is rejected with HTTP 400, state unchanged. -/
theorem duplicate_add_handling :
    (∀ (rq : Requester) (b : Body) (st : ServerSt) (e : Stock),
      (mkPayload rq b st.nextId st.now).action = "add" →
      (mkPayload rq b st.nextId st.now).chassisNo ≠ "" →
      (mkPayload rq b st.nextId st.now).sourceBranch ≠ "" →
      st.stocks.find? (fun s => s.chassisNo == (mkPayload rq b st.nextId st.now).chassisNo &&
        s.status == "in_stock") = some e →
      (latestNonDeleted st.movements (mkPayload rq b st.nextId st.now).chassisNo).bind
        deriveCurrentBranch = some e.sourceBranch →
      e.sourceBranch ≠ (mkPayload rq b st.nextId st.now).sourceBranch →
      hasPendingTransfer st.movements (mkPayload rq b st.nextId st.now).chassisNo = false →
      st.movements.any (fun mm =>
        mm.movementId == (mkPayload rq b st.nextId st.now).movementId) = false →
      createMovement rq b st =
        .ok ({ mkPayload rq b st.nextId st.now with
               action := "transfer", sourceBranch := e.sourceBranch,
               targetBranch := (mkPayload rq b st.nextId st.now).sourceBranch,
               transferStatus := "pending",
               notes := appendAutoNote (mkPayload rq b st.nextId st.now).notes },
             { movements := st.movements ++
                 [{ mkPayload rq b st.nextId st.now with
                    action := "transfer", sourceBranch := e.sourceBranch,
                    targetBranch := (mkPayload rq b st.nextId st.now).sourceBranch,
                    transferStatus := "pending",
                    notes := appendAutoNote (mkPayload rq b st.nextId st.now).notes }],
               stocks := applyMovementToStock
                 { mkPayload rq b st.nextId st.now with
                   action := "transfer", sourceBranch := e.sourceBranch,
                   targetBranch := (mkPayload rq b st.nextId st.now).sourceBranch,
                   transferStatus := "pending",
                   notes := appendAutoNote (mkPayload rq b st.nextId st.now).notes }
                 st.stocks,
               nextId := st.nextId + 1, now := st.now + 1 })) ∧
    (∀ (rq : Requester) (b : Body) (st : ServerSt) (e : Stock),
      (mkPayload rq b st.nextId st.now).action = "add" →
      (mkPayload rq b st.nextId st.now).chassisNo ≠ "" →
      (mkPayload rq b st.nextId st.now).sourceBranch ≠ "" →
      st.stocks.find? (fun s => s.chassisNo == (mkPayload rq b st.nextId st.now).chassisNo &&
        s.status == "in_stock") = some e →
      (latestNonDeleted st.movements (mkPayload rq b st.nextId st.now).chassisNo).bind
        deriveCurrentBranch = some e.sourceBranch →
      e.sourceBranch = (mkPayload rq b st.nextId st.now).sourceBranch →
      createMovement rq b st = .error ⟨409, "Chassis already exists in this branch"⟩ ∧
        stepOp st (.createOp rq b) = st) ∧
    (∀ (rq : Requester) (b : Body) (st : ServerSt),
      (mkPayload rq b st.nextId st.now).action = "add" →
      (mkPayload rq b st.nextId st.now).chassisNo ≠ "" →
      (mkPayload rq b st.nextId st.now).sourceBranch = "" →
      (latestNonDeleted st.movements (mkPayload rq b st.nextId st.now).chassisNo).bind
        deriveCurrentBranch = none →
      createMovement rq b st = .error ⟨400, "Source branch is required for add"⟩ ∧
        stepOp st (.createOp rq b) = st) := by
  refine ⟨?_, ?_, ?_⟩
  · intro rq b st e hact hch hsrc hfind hcur hne hpend hfresh
    have hconv : ledgerAutoConvert rq
        ((latestNonDeleted st.movements (mkPayload rq b st.nextId st.now).chassisNo).bind
          deriveCurrentBranch) (mkPayload rq b st.nextId st.now) =
        { mkPayload rq b st.nextId st.now with
          action := "transfer", sourceBranch := e.sourceBranch,
          targetBranch := (mkPayload rq b st.nextId st.now).sourceBranch,
          notes := appendAutoNote (mkPayload rq b st.nextId st.now).notes } := by
      rw [hcur]
      exact ledgerAutoConvert_converts hact hsrc (fun h => hne h.symm)
    have hadd : addBlock rq st.stocks
        (ledgerAutoConvert rq
          ((latestNonDeleted st.movements (mkPayload rq b st.nextId st.now).chassisNo).bind
            deriveCurrentBranch) (mkPayload rq b st.nextId st.now)) =
        .ok { mkPayload rq b st.nextId st.now with
              action := "transfer", sourceBranch := e.sourceBranch,
              targetBranch := (mkPayload rq b st.nextId st.now).sourceBranch,
              notes := appendAutoNote (mkPayload rq b st.nextId st.now).notes } := by
      rw [hconv]
      exact addBlock_skip (by
        show ¬ (("transfer" : String) = "add")
        decide)
    have hfs : forceSource
        ((latestNonDeleted st.movements (mkPayload rq b st.nextId st.now).chassisNo).bind
          deriveCurrentBranch)
        { mkPayload rq b st.nextId st.now with
          action := "transfer", sourceBranch := e.sourceBranch,
          targetBranch := (mkPayload rq b st.nextId st.now).sourceBranch,
          notes := appendAutoNote (mkPayload rq b st.nextId st.now).notes } =
        { mkPayload rq b st.nextId st.now with
          action := "transfer", sourceBranch := e.sourceBranch,
          targetBranch := (mkPayload rq b st.nextId st.now).sourceBranch,
          notes := appendAutoNote (mkPayload rq b st.nextId st.now).notes } := by
      rw [hcur]
      unfold forceSource
      dsimp only
      rw [if_neg (not_not_intro rfl)]
    have htr : transferBlock
        ((latestNonDeleted st.movements (mkPayload rq b st.nextId st.now).chassisNo).bind
          deriveCurrentBranch) st.movements
        { mkPayload rq b st.nextId st.now with
          action := "transfer", sourceBranch := e.sourceBranch,
          targetBranch := (mkPayload rq b st.nextId st.now).sourceBranch,
          notes := appendAutoNote (mkPayload rq b st.nextId st.now).notes } =
        .ok { mkPayload rq b st.nextId st.now with
              action := "transfer", sourceBranch := e.sourceBranch,
              targetBranch := (mkPayload rq b st.nextId st.now).sourceBranch,
              transferStatus := "pending",
              notes := appendAutoNote (mkPayload rq b st.nextId st.now).notes } := by
      have h := @transferBlock_ok_eval
        ((latestNonDeleted st.movements (mkPayload rq b st.nextId st.now).chassisNo).bind
          deriveCurrentBranch)
        st.movements
        { mkPayload rq b st.nextId st.now with
          action := "transfer", sourceBranch := e.sourceBranch,
          targetBranch := (mkPayload rq b st.nextId st.now).sourceBranch,
          notes := appendAutoNote (mkPayload rq b st.nextId st.now).notes }
        rfl hsrc
        (by rw [hfs]; intro hc; exact hne hc.2.2)
        (by rw [hfs]; exact hpend)
      rw [hfs] at h
      exact h
    exact createMovement_ok_intro hch hadd htr
      (by show ("transfer" : String) ∈ ACTIONS; decide) hfresh
  · intro rq b st e hact hch hsrc hfind hcur hsame
    have hskip : ledgerAutoConvert rq
        ((latestNonDeleted st.movements (mkPayload rq b st.nextId st.now).chassisNo).bind
          deriveCurrentBranch) (mkPayload rq b st.nextId st.now) =
        mkPayload rq b st.nextId st.now := by
      rw [hcur]
      apply ledgerAutoConvert_skip_same
      rw [jsOr_of_ne _ hsrc]
      exact hsame.symm
    have herr := createMovement_err_of_addBlock hch
      (by rw [hskip]; exact addBlock_409 hact hsrc hfind hsame)
    exact ⟨herr, stepOp_create_of_error herr⟩
  · intro rq b st hact hch hsrc hnone
    have hskip : ledgerAutoConvert rq
        ((latestNonDeleted st.movements (mkPayload rq b st.nextId st.now).chassisNo).bind
          deriveCurrentBranch) (mkPayload rq b st.nextId st.now) =
        mkPayload rq b st.nextId st.now := by
      rw [hnone]
      rfl
    have herr := createMovement_err_of_addBlock hch
      (by rw [hskip]; exact addBlock_400 hact hsrc)
    exact ⟨herr, stepOp_create_of_error herr⟩

/-- Witness for C2 on concrete runs: with x1 in stock at A, an add to C is
auto-converted into a pending transfer A→C with the auto note; an add to A is
rejected with 409 leaving the state unchanged; an add with no source branch
is rejected with 400 leaving the state unchanged. -/
theorem duplicate_add_handling_witness :
    createMovement exAdmin exAddBodyC exSt1 = .ok (exAutoTrMv, exStC) ∧
    (createMovement exAdmin exAddBody exSt1 =
        .error ⟨409, "Chassis already exists in this branch"⟩ ∧
      stepOp exSt1 (.createOp exAdmin exAddBody) = exSt1) ∧
    (createMovement exAdmin exNoSrcAddBody initSt =
        .error ⟨400, "Source branch is required for add"⟩ ∧
      stepOp initSt (.createOp exAdmin exNoSrcAddBody) = initSt) := by
  refine ⟨?_, ?_, ?_⟩
  · exact duplicate_add_handling.1 exAdmin exAddBodyC exSt1 exStockA
      rfl (by decide) (by decide) (by rfl) (by rfl) (by decide) (by rfl) (by rfl)
  · exact duplicate_add_handling.2.1 exAdmin exAddBody exSt1 exStockA
      rfl (by decide) (by decide) (by rfl) (by rfl) (by rfl)
  · exact duplicate_add_handling.2.2 exAdmin exNoSrcAddBody initSt
      rfl (by decide) (by rfl) (by rfl)

/-- **C8** Implicit default action: a create-movement request whose body
carries no `Action`/`action` value is treated as a `transfer`, and therefore
such a request without a target branch is rejected with HTTP 400
"Target branch is required for transfer", creating nothing. -/
theorem default_action_transfer :
    (∀ (rq : Requester) (b : Body) (uuid now : Nat),
      (fromOf b).action = "" → (mkPayload rq b uuid now).action = "transfer") ∧
    (∀ (rq : Requester) (b : Body) (st : ServerSt),
      (fromOf b).action = "" →
      (mkPayload rq b st.nextId st.now).chassisNo ≠ "" →
      jsTrim (fromOf b).targetBranch = "" →
      createMovement rq b st = .error ⟨400, "Target branch is required for transfer"⟩ ∧
        stepOp st (.createOp rq b) = st) := by
  constructor
  · intro rq b uuid now hact
    show jsOr (jsToLower (fromOf b).action) "transfer" = "transfer"
    rw [hact]
    rfl
  · intro rq b st hact hch htgt
    have hact' : (mkPayload rq b st.nextId st.now).action = "transfer" := by
      show jsOr (jsToLower (fromOf b).action) "transfer" = "transfer"
      rw [hact]
      rfl
    have hnotadd : ¬ ((mkPayload rq b st.nextId st.now).action = "add") := by
      rw [hact']
      decide
    have hskip : ledgerAutoConvert rq
        ((latestNonDeleted st.movements (mkPayload rq b st.nextId st.now).chassisNo).bind
          deriveCurrentBranch) (mkPayload rq b st.nextId st.now) =
        mkPayload rq b st.nextId st.now :=
      ledgerAutoConvert_not_add hnotadd
    have herr := createMovement_err_of_transferBlock hch
      (by rw [hskip]; exact addBlock_skip hnotadd)
      (transferBlock_400_target hact' htgt)
    exact ⟨herr, stepOp_create_of_error herr⟩

/-- Witness for C8: a body with chassis x1 and neither an action nor a target
branch defaults to `transfer` and is answered 400, leaving the empty state
unchanged. -/
theorem default_action_transfer_witness :
    (mkPayload exAdmin exNoActionBody initSt.nextId initSt.now).action = "transfer" ∧
    createMovement exAdmin exNoActionBody initSt =
      .error ⟨400, "Target branch is required for transfer"⟩ ∧
    stepOp initSt (.createOp exAdmin exNoActionBody) = initSt := by
  refine ⟨default_action_transfer.1 exAdmin exNoActionBody initSt.nextId initSt.now rfl, ?_⟩
  exact default_action_transfer.2 exAdmin exNoActionBody initSt rfl (by decide) (by rfl)

theorem find?_eraseP_none {p : Stock → Bool} :
    ∀ l : List Stock, l.countP p ≤ 1 → (l.eraseP p).find? p = none := by
  intro l
  induction l with
  | nil => intro _; rfl
  | cons s t ih =>
    intro hc
    by_cases hs : p s = true
    · rw [List.eraseP_cons_of_pos hs]
      have ht : t.countP p = 0 := by
        rw [List.countP_cons, if_pos hs] at hc
        omega
      rw [List.find?_eq_none]
      intro x hx
      have := (List.countP_eq_zero.mp ht) x hx
      simpa using this
    · rw [List.eraseP_cons_of_neg hs]
      have ht : t.countP p ≤ 1 := by
        rw [List.countP_cons, if_neg hs] at hc
        omega
      simpa [List.find?_cons, hs] using ih ht

/-- Elimination principle for a successful `PATCH /:id`. -/
theorem patchMovement_ok_elim {rq : Requester} {id : Nat} {p : PatchBody} {st : ServerSt}
    {u : Movement} {st' : ServerSt} (h : patchMovement rq id p st = .ok (u, st')) :
    ∃ m, st.movements.find? (fun x => x.movementId == id) = some m ∧
      u = applyPatch p m ∧
      st' = { recomputeStockForChassis u.chassisNo
          { st with movements := st.movements.map (fun x => if x.movementId == id then u else x) }
        with now := st.now + 1 } := by
  unfold patchMovement at h
  split at h
  · exact absurd h (by simp)
  · split at h
    · exact absurd h (by simp)
    · rename_i m hfind
      dsimp only at h
      rw [Except.ok.injEq, Prod.mk.injEq] at h
      obtain ⟨h1, h2⟩ := h
      exact ⟨m, hfind, h1.symm, by rw [← h1]; exact h2.symm⟩

/-- Elimination principle for a successful `DELETE /:id`. -/
theorem softDeleteMovement_ok_elim {rq : Requester} {id : Nat} {st : ServerSt}
    {u : Movement} {st' : ServerSt} (h : softDeleteMovement rq id st = .ok (u, st')) :
    ∃ m, st.movements.find? (fun x => x.movementId == id) = some m ∧
      u = { m with deleted := true } ∧
      st' = { recomputeStockForChassis u.chassisNo
          { st with movements := st.movements.map (fun x => if x.movementId == id then u else x) }
        with now := st.now + 1 } := by
  unfold softDeleteMovement at h
  split at h
  · exact absurd h (by simp)
  · split at h
    · exact absurd h (by simp)
    · rename_i m hfind
      dsimp only at h
      rw [Except.ok.injEq, Prod.mk.injEq] at h
      obtain ⟨h1, h2⟩ := h
      exact ⟨m, hfind, h1.symm, by rw [← h1]; exact h2.symm⟩

theorem recompute_movements (ch : String) (s : ServerSt) :
    (recomputeStockForChassis ch s).movements = s.movements := by
  unfold recomputeStockForChassis
  dsimp only
  split
  · rfl
  · split <;> rfl

theorem recompute_stocks_of_none {ch : String} {s : ServerSt}
    (hne : ch ≠ "") (hch : jsToUpper (jsTrim ch) = ch)
    (hnone : latestNonDeleted s.movements ch = none) :
    (recomputeStockForChassis ch s).stocks = s.stocks.eraseP (fun x => x.chassisNo == ch) := by
  unfold recomputeStockForChassis
  rw [hch, if_neg hne, hnone]

theorem recompute_stocks_of_some {ch : String} {s : ServerSt} {m : Movement}
    (hne : ch ≠ "") (hch : jsToUpper (jsTrim ch) = ch)
    (hsome : latestNonDeleted s.movements ch = some m) :
    (recomputeStockForChassis ch s).stocks = applyMovementToStock m s.stocks := by
  unfold recomputeStockForChassis
  rw [hch, if_neg hne, hsome]

/-- **C3** Snapshot recomputation keeps the Stock invariant after edits and
soft-deletes.  After a successful `PATCH /:id` or `DELETE /:id` for a
movement of chassis `u.chassisNo` (with the snapshot collection holding at
most one document for that chassis): if no non-deleted movement remains for
the chassis the Stock document is gone, and otherwise the snapshot collection
equals the movement→snapshot application of the latest non-deleted movement.
Concretely, soft-deleting the admitted transfer of the
`add→A / transfer→B / admit` run relocates the snapshot back to A, and
soft-deleting a chassis's only movement removes its Stock document. -/
theorem snapshot_recompute_after_edit_delete :
    (∀ (rq : Requester) (id : Nat) (p : PatchBody) (st : ServerSt)
        (u : Movement) (st' : ServerSt),
      patchMovement rq id p st = .ok (u, st') →
      u.chassisNo ≠ "" → jsToUpper (jsTrim u.chassisNo) = u.chassisNo →
      st.stocks.countP (fun s => s.chassisNo == u.chassisNo) ≤ 1 →
      (latestNonDeleted st'.movements u.chassisNo = none →
        findStock st'.stocks u.chassisNo = none) ∧
      (∀ m, latestNonDeleted st'.movements u.chassisNo = some m →
        st'.stocks = applyMovementToStock m st.stocks)) ∧
    (∀ (rq : Requester) (id : Nat) (st : ServerSt) (u : Movement) (st' : ServerSt),
      softDeleteMovement rq id st = .ok (u, st') →
      u.chassisNo ≠ "" → jsToUpper (jsTrim u.chassisNo) = u.chassisNo →
      st.stocks.countP (fun s => s.chassisNo == u.chassisNo) ≤ 1 →
      (latestNonDeleted st'.movements u.chassisNo = none →
        findStock st'.stocks u.chassisNo = none) ∧
      (∀ m, latestNonDeleted st'.movements u.chassisNo = some m →
        st'.stocks = applyMovementToStock m st.stocks)) ∧
    ((findStock exStDel.stocks "X1").map (·.sourceBranch) = some "A" ∧
      (findStock exStDel.stocks "X1").map (·.status) = some "in_stock") ∧
    exStDelAll.stocks = [] := by
  refine ⟨?_, ?_, ⟨by decide, by decide⟩, by decide⟩
  · intro rq id p st u st' h hne hch hcount
    obtain ⟨m, hfind, hu, hst'⟩ := patchMovement_ok_elim h
    have hmov : st'.movements
        = st.movements.map (fun x => if x.movementId == id then u else x) := by
      rw [hst']
      exact recompute_movements _ _
    have hstk : st'.stocks = (recomputeStockForChassis u.chassisNo
        { st with
          movements := st.movements.map (fun x => if x.movementId == id then u else x) }).stocks := by
      rw [hst']
    constructor
    · intro hnone
      rw [hmov] at hnone
      rw [hstk, recompute_stocks_of_none hne hch hnone]
      exact find?_eraseP_none st.stocks hcount
    · intro m2 hsome
      rw [hmov] at hsome
      rw [hstk, recompute_stocks_of_some hne hch hsome]
  · intro rq id st u st' h hne hch hcount
    obtain ⟨m, hfind, hu, hst'⟩ := softDeleteMovement_ok_elim h
    have hmov : st'.movements
        = st.movements.map (fun x => if x.movementId == id then u else x) := by
      rw [hst']
      exact recompute_movements _ _
    have hstk : st'.stocks = (recomputeStockForChassis u.chassisNo
        { st with
          movements := st.movements.map (fun x => if x.movementId == id then u else x) }).stocks := by
      rw [hst']
    constructor
    · intro hnone
      rw [hmov] at hnone
      rw [hstk, recompute_stocks_of_none hne hch hnone]
      exact find?_eraseP_none st.stocks hcount
    · intro m2 hsome
      rw [hmov] at hsome
      rw [hstk, recompute_stocks_of_some hne hch hsome]

/-- Witness for C3 on concrete runs: patching the pending transfer's notes
re-applies the (patched) latest movement to the snapshot, and soft-deleting a
chassis's only movement leaves no Stock document. -/
theorem snapshot_recompute_after_edit_delete_witness :
    exStPatch.stocks = applyMovementToStock exTrMvPatched exSt2.stocks ∧
    findStock exStDelAll.stocks "X1" = none := by
  constructor
  · exact (snapshot_recompute_after_edit_delete.1 exAdmin 2 exNotesPatch exSt2
      exTrMvPatched exStPatch (by rfl) (by decide) (by decide) (by decide)).2
      exTrMvPatched (by rfl)
  · exact (snapshot_recompute_after_edit_delete.2.1 exAdmin 1 exSt1
      exAddMvDel exStDelAll (by rfl) (by decide) (by decide) (by decide)).1 (by rfl)

theorem transferBlock_409 {cb : Option String} {ms : List Movement} {p : Movement}
    (hact : p.action = "transfer") (htgt : p.targetBranch ≠ "")
    (hneq : ¬((forceSource cb p).sourceBranch ≠ "" ∧ (forceSource cb p).targetBranch ≠ "" ∧
      (forceSource cb p).sourceBranch = (forceSource cb p).targetBranch))
    (hpend : hasPendingTransfer ms (forceSource cb p).chassisNo = true) :
    transferBlock cb ms p =
      .error ⟨409, "A pending transfer already exists for this chassis"⟩ := by
  unfold transferBlock
  rw [if_pos hact, if_neg htgt]
  dsimp only
  rw [if_neg hneq, hpend]
  simp only [if_true]

theorem transferBlock_ok_no_pending {cb : Option String} {ms : List Movement}
    {p q : Movement} (h : transferBlock cb ms p = .ok q)
    (hq : q.transferStatus = "pending") :
    hasPendingTransfer ms q.chassisNo = false := by
  unfold transferBlock at h
  by_cases hact : p.action = "transfer"
  · rw [if_pos hact] at h
    split at h
    · exact absurd h (by simp)
    · dsimp only at h
      split at h
      · exact absurd h (by simp)
      · split at h
        · exact absurd h (by simp)
        · rename_i hpend
          rw [Except.ok.injEq] at h
          subst h
          simpa using hpend
  · rw [if_neg hact, Except.ok.injEq] at h
    subst h
    have hc : ("completed" : String) = "pending" := hq
    exact absurd hc (by decide)

theorem countP_map_le {p : Movement → Bool} {f : Movement → Movement}
    (hf : ∀ x, p (f x) = true → p x = true) :
    ∀ l : List Movement, (l.map f).countP p ≤ l.countP p := by
  intro l
  induction l with
  | nil => exact Nat.le_refl _
  | cons x t ih =>
    rw [List.map_cons, List.countP_cons, List.countP_cons]
    by_cases hx : p (f x) = true
    · rw [if_pos hx, if_pos (hf x hx)]
      omega
    · rw [if_neg hx]
      split <;> omega

theorem hasPendingTransfer_eq_false_iff {ms : List Movement} {ch : String} :
    hasPendingTransfer ms ch = false ↔
      ms.countP (fun m => m.chassisNo == ch && m.action == "transfer" &&
        m.transferStatus == "pending" && !m.deleted) = 0 := by
  unfold hasPendingTransfer
  rw [List.any_eq_false, List.countP_eq_zero]

theorem pendingUnique_stepOp {st : ServerSt} (o : Op) (hst : pendingUnique st)
    (hnp : isPatchOp o = false) : pendingUnique (stepOp st o) := by
  cases o with
  | createOp rq b =>
    cases hc : createMovement rq b st with
    | error e =>
      simpa [stepOp, hc, Except.map, Except.toOption] using hst
    | ok v =>
      obtain ⟨m, st'⟩ := v
      have hstep : stepOp st (.createOp rq b) = st' := by
        simp [stepOp, hc, Except.map, Except.toOption]
      rw [hstep]
      obtain ⟨_, p2, _, htr, hsteq⟩ := createMovement_ok_elim hc
      intro ch
      have hmv : st'.movements = st.movements ++ [m] := by rw [hsteq]
      unfold pendingCount
      rw [hmv, List.countP_append]
      by_cases hm : (m.chassisNo == ch && m.action == "transfer" &&
          m.transferStatus == "pending" && !m.deleted) = true
      · have hchm : m.chassisNo = ch := by
          have := hm
          simp only [Bool.and_eq_true, beq_iff_eq] at this
          exact this.1.1.1
        have hmp : m.transferStatus = "pending" := by
          simp only [Bool.and_eq_true, beq_iff_eq] at hm
          exact hm.1.2
        have hnopend := transferBlock_ok_no_pending htr hmp
        have hzero : st.movements.countP (fun mm => mm.chassisNo == ch &&
            mm.action == "transfer" && mm.transferStatus == "pending" && !mm.deleted) = 0 := by
          rw [← hchm]
          exact hasPendingTransfer_eq_false_iff.mp hnopend
        rw [hzero]
        simp [hm]
      · have h0 : ([m].countP (fun mm => mm.chassisNo == ch && mm.action == "transfer" &&
            mm.transferStatus == "pending" && !mm.deleted)) = 0 := by
          simp [List.countP_cons, hm]
        rw [h0]
        simpa [pendingCount] using hst ch
  | admitOp rq id note =>
    cases hc : admitTransfer rq id note st with
    | error e => simpa [stepOp, hc, Except.map, Except.toOption] using hst
    | ok v =>
      obtain ⟨m', st'⟩ := v
      have hstep : stepOp st (.admitOp rq id note) = st' := by
        simp [stepOp, hc, Except.map, Except.toOption]
      rw [hstep]
      obtain ⟨mv, _, _, _, hm', hsteq⟩ := admitTransfer_ok_elim hc
      intro ch
      have hmv : st'.movements =
          st.movements.map (fun x => if x.movementId == id then m' else x) := by
        rw [hsteq]
      unfold pendingCount
      rw [hmv]
      refine Nat.le_trans (countP_map_le ?_ st.movements) (hst ch)
      intro x hx
      by_cases hid : (x.movementId == id) = true
      · rw [if_pos hid] at hx
        exfalso
        simp only [Bool.and_eq_true, beq_iff_eq] at hx
        have : m'.transferStatus = "admitted" := by rw [hm']
        rw [this] at hx
        exact absurd hx.1.2 (by decide)
      · rwa [if_neg hid] at hx
  | rejectOp rq id reason =>
    cases hc : rejectTransfer rq id reason st with
    | error e => simpa [stepOp, hc, Except.map, Except.toOption] using hst
    | ok v =>
      obtain ⟨m', st'⟩ := v
      have hstep : stepOp st (.rejectOp rq id reason) = st' := by
        simp [stepOp, hc, Except.map, Except.toOption]
      rw [hstep]
      obtain ⟨mv, _, _, _, hm', hsteq⟩ := rejectTransfer_ok_elim hc
      intro ch
      have hmv : st'.movements =
          st.movements.map (fun x => if x.movementId == id then m' else x) := by
        rw [hsteq]
      unfold pendingCount
      rw [hmv]
      refine Nat.le_trans (countP_map_le ?_ st.movements) (hst ch)
      intro x hx
      by_cases hid : (x.movementId == id) = true
      · rw [if_pos hid] at hx
        exfalso
        simp only [Bool.and_eq_true, beq_iff_eq] at hx
        have : m'.transferStatus = "rejected" := by rw [hm']
        rw [this] at hx
        exact absurd hx.1.2 (by decide)
      · rwa [if_neg hid] at hx
  | patchOp rq id p => exact absurd hnp (by simp [isPatchOp])
  | deleteOp rq id =>
    cases hc : softDeleteMovement rq id st with
    | error e => simpa [stepOp, hc, Except.map, Except.toOption] using hst
    | ok v =>
      obtain ⟨m', st'⟩ := v
      have hstep : stepOp st (.deleteOp rq id) = st' := by
        simp [stepOp, hc, Except.map, Except.toOption]
      rw [hstep]
      obtain ⟨mv, _, hm', hsteq⟩ := softDeleteMovement_ok_elim hc
      intro ch
      have hmv : st'.movements =
          st.movements.map (fun x => if x.movementId == id then m' else x) := by
        rw [hsteq]
        exact recompute_movements _ _
      unfold pendingCount
      rw [hmv]
      refine Nat.le_trans (countP_map_le ?_ st.movements) (hst ch)
      intro x hx
      by_cases hid : (x.movementId == id) = true
      · rw [if_pos hid] at hx
        exfalso
        simp only [Bool.and_eq_true, beq_iff_eq] at hx
        have hd : m'.deleted = true := by rw [hm']
        rw [hd] at hx
        simp at hx
      · rwa [if_neg hid] at hx

/-- **C4 (counterexample)** The pending-transfer uniqueness invariant, as
claimed over the whole stock-movement API run sequentially, is false: the
concrete five-request run `create add; create transfer; reject; create
transfer; PATCH transferStatus:='pending'` is API-reachable and ends with two
live pending transfers for chassis X1. -/
theorem pending_transfer_uniqueness_counterexample :
    exStTwoPending = runOps [.createOp exAdmin exAddBody, .createOp exAdmin exTransferBody,
      .rejectOp exStaffB 2 "", .createOp exAdmin exTransferBody,
      .patchOp exAdmin 2 exPendingPatch] ∧
    pendingCount exStTwoPending "X1" = 2 ∧ ¬ pendingUnique exStTwoPending := by
  refine ⟨rfl, by decide, ?_⟩
  intro hall
  exact absurd (hall "X1") (by decide)

/-- **C4 (amended)** Pending-transfer uniqueness holds for every state
reachable through the stock-movement API without the privileged full-update
`PATCH /:id` endpoint (create / admit / reject / soft-delete); and a
create-movement request that reaches the pending-transfer check while a live
pending transfer exists for the chassis is rejected with HTTP 409
"A pending transfer already exists for this chassis", leaving the state
unchanged. -/
theorem pending_transfer_uniqueness_amended :
    (∀ ops : List Op, (∀ o ∈ ops, isPatchOp o = false) → pendingUnique (runOps ops)) ∧
    (∀ (rq : Requester) (b : Body) (st : ServerSt) (p2 : Movement),
      (mkPayload rq b st.nextId st.now).chassisNo ≠ "" →
      addBlock rq st.stocks
        (ledgerAutoConvert rq
          ((latestNonDeleted st.movements (mkPayload rq b st.nextId st.now).chassisNo).bind
            deriveCurrentBranch)
          (mkPayload rq b st.nextId st.now)) = .ok p2 →
      p2.action = "transfer" → p2.targetBranch ≠ "" →
      ¬((forceSource ((latestNonDeleted st.movements
            (mkPayload rq b st.nextId st.now).chassisNo).bind deriveCurrentBranch)
          p2).sourceBranch ≠ "" ∧
        (forceSource ((latestNonDeleted st.movements
            (mkPayload rq b st.nextId st.now).chassisNo).bind deriveCurrentBranch)
          p2).targetBranch ≠ "" ∧
        (forceSource ((latestNonDeleted st.movements
            (mkPayload rq b st.nextId st.now).chassisNo).bind deriveCurrentBranch)
          p2).sourceBranch =
        (forceSource ((latestNonDeleted st.movements
            (mkPayload rq b st.nextId st.now).chassisNo).bind deriveCurrentBranch)
          p2).targetBranch) →
      hasPendingTransfer st.movements p2.chassisNo = true →
      createMovement rq b st =
        .error ⟨409, "A pending transfer already exists for this chassis"⟩ ∧
        stepOp st (.createOp rq b) = st) := by
  constructor
  · intro ops hops
    have hgen : ∀ (l : List Op) (st : ServerSt), (∀ o ∈ l, isPatchOp o = false) →
        pendingUnique st → pendingUnique (l.foldl stepOp st) := by
      intro l
      induction l with
      | nil => intro st _ hst; exact hst
      | cons o t ih =>
        intro st hl hst
        rw [List.foldl_cons]
        exact ih (stepOp st o) (fun x hx => hl x (List.mem_cons_of_mem o hx))
          (pendingUnique_stepOp o hst (hl o (List.mem_cons_self o t)))
    exact hgen ops initSt hops (fun ch => by simp [pendingCount, initSt])
  · intro rq b st p2 hch hadd hact htgt hneq hpend
    have hfs := (forceSource_fields ((latestNonDeleted st.movements
        (mkPayload rq b st.nextId st.now).chassisNo).bind deriveCurrentBranch) p2).1
    have herr := createMovement_err_of_transferBlock hch hadd
      (transferBlock_409 hact htgt hneq (by rw [hfs]; exact hpend))
    exact ⟨herr, stepOp_create_of_error herr⟩

/-- Witness for the amended C4: the four-request no-PATCH run satisfies the
invariant, and a second transfer for x1 on top of `exSt2` is answered 409
with the state unchanged. -/
theorem pending_transfer_uniqueness_amended_witness :
    pendingUnique exStNoPatch ∧
    createMovement exAdmin exTransferBody exSt2 =
      .error ⟨409, "A pending transfer already exists for this chassis"⟩ ∧
    stepOp exSt2 (.createOp exAdmin exTransferBody) = exSt2 := by
  refine ⟨?_, ?_⟩
  · exact pending_transfer_uniqueness_amended.1
      [.createOp exAdmin exAddBody, .createOp exAdmin exTransferBody,
       .rejectOp exStaffB 2 "", .createOp exAdmin exTransferBody] (by decide)
  · exact pending_transfer_uniqueness_amended.2 exAdmin exTransferBody exSt2
      (mkPayload exAdmin exTransferBody exSt2.nextId exSt2.now)
      (by decide) (by rfl) rfl (by decide) (by decide) (by rfl)

theorem saveUser_ok_elim {users : List User} {u : User} {users' : List User}
    (h : saveUser users u = .ok users') : users' = users ++ [u] := by
  unfold saveUser at h
  split at h
  · exact absurd h (by simp)
  · split at h
    · exact absurd h (by simp)
    · split at h
      · exact absurd h (by simp)
      · split at h
        · exact absurd h (by simp)
        · split at h
          · exact absurd h (by simp)
          · rw [Except.ok.injEq] at h
            exact h.symm

theorem saveUser_error_of_dup_email {users : List User} {u : User}
    (h : users.any (fun v => v.email == u.email) = true) :
    ∃ e, saveUser users u = .error e := by
  cases hs : saveUser users u with
  | error e => exact ⟨e, rfl⟩
  | ok users' =>
    exfalso
    unfold saveUser at hs
    split at hs
    · exact absurd hs (by simp)
    · split at hs
      · exact absurd hs (by simp)
      · split at hs
        · exact absurd hs (by simp)
        · exact absurd hs (by simp)

/-- **C5 (counterexample)** The claim fails on the simple register variant
(`src/routes/userRoutes.js`): a public registration whose body carries
`role: 'admin'` and a branch assignment is stored verbatim — the handler
passes `req.body` straight into the User model, so the stored user has role
`admin` and the submitted branch, not a forced safe default. -/
theorem register_escalation_counterexample :
    (registerSimple exAdminRegBody []).1 = [RegEvent.respondedSuccess] ∧
    (registerSimple exAdminRegBody []).2.1 =
      [{ name := "Eve", email := "eve@example.com", phone := none,
         password := bcryptHash "pw", role := "admin",
         primaryBranch := some "branch1", branches := ["branch1"] }] := by
  exact ⟨by decide, by decide⟩

/-- **C5 (amended)** Escalation is blocked only in the fuller register
variant: its `safeBody` stores every successfully registered user with role
`'user'` and no branch assignment, regardless of the submitted body.  In the
simple variant the model's default role `'staff'` applies only when the body
omits the role field — any user that run stores is either pre-existing or
has role `'staff'`. -/
theorem register_escalation_amended :
    (∀ (b : RegisterBody) (users users' : List User) (u : User),
      registerSafe b users = .ok (users', u) →
      u.role = "user" ∧ u.primaryBranch = none ∧ u.branches = [] ∧
        users' = users ++ [u]) ∧
    (∀ (b : RegisterBody) (users : List User),
      b.role = none →
      ∀ u ∈ (registerSimple b users).2.1, u ∈ users ∨ u.role = "staff") := by
  constructor
  · intro b users users' u h
    unfold registerSafe at h
    split at h
    · exact absurd h (by simp)
    · split at h
      · exact absurd h (by simp)
      · split at h
        · rename_i users'' hsave
          rw [Except.ok.injEq, Prod.mk.injEq] at h
          obtain ⟨h1, h2⟩ := h
          subst h2
          refine ⟨rfl, rfl, rfl, ?_⟩
          rw [← h1]
          exact saveUser_ok_elim hsave
        · exact absurd h (by simp)
  · intro b users hrole u hu
    unfold registerSimple at hu
    dsimp only at hu
    split at hu
    · rename_i users'' hsave
      rw [saveUser_ok_elim hsave] at hu
      rcases List.mem_append.mp hu with hl | hr
      · exact Or.inl hl
      · right
        have : u = mkUserFromBody b (bcryptHash b.password) := by simpa using hr
        rw [this]
        show (b.role.getD "staff") = "staff"
        rw [hrole]
        rfl
    · exact Or.inl hu

/-- Witness for the amended C5: the admin-role body stores a `'user'`-role,
branchless user through the safeBody variant; the role-less body stores a
`'staff'`-role user through the simple variant. -/
theorem register_escalation_amended_witness :
    (exSafeUser.role = "user" ∧ exSafeUser.primaryBranch = none ∧
      exSafeUser.branches = [] ∧ [exSafeUser] = [] ++ [exSafeUser]) ∧
    exStaffUser.role = "staff" := by
  constructor
  · exact register_escalation_amended.1 exAdminRegBody [] [exSafeUser] exSafeUser (by rfl)
  · exact (register_escalation_amended.2 exStaffRegBody [] rfl exStaffUser
      (by decide)).resolve_left (by simp)

/-- **C10** The simple register handler's duplicate branch is not an early
return: when a user with the submitted email already exists, the handler
sends the failure response, then still hashes the submitted password and
attempts to save a new user with the same (normalized) email; only the
save's own failure (unique index) leaves the collection unchanged. -/
theorem simple_register_duplicate_not_atomic :
    ∀ (b : RegisterBody) (users : List User),
      users.any (fun v => v.email == normEmail b.email) = true →
      (registerSimple b users).1 = [RegEvent.respondedExists, RegEvent.saveFailed] ∧
      (registerSimple b users).2.2.password = bcryptHash b.password ∧
      (registerSimple b users).2.2.email = normEmail b.email ∧
      (registerSimple b users).2.1 = users := by
  intro b users hdup
  obtain ⟨e, he⟩ := saveUser_error_of_dup_email
    (u := mkUserFromBody b (bcryptHash b.password)) hdup
  simp only [registerSimple]
  rw [hdup, he]
  exact ⟨rfl, rfl, rfl, rfl⟩

/-- Witness for C10: re-registering `eve@example.com` over an existing
account answers the duplicate response, still attempts the save with the
freshly hashed password, and leaves the collection unchanged. -/
theorem simple_register_duplicate_not_atomic_witness :
    (registerSimple exPlainRegBody [exExistingUser]).1 =
      [RegEvent.respondedExists, RegEvent.saveFailed] ∧
    (registerSimple exPlainRegBody [exExistingUser]).2.2.password = bcryptHash "pw" ∧
    (registerSimple exPlainRegBody [exExistingUser]).2.2.email = "eve@example.com" ∧
    (registerSimple exPlainRegBody [exExistingUser]).2.1 = [exExistingUser] := by
  have h := simple_register_duplicate_not_atomic exPlainRegBody [exExistingUser] (by decide)
  exact ⟨h.1, h.2.1, h.2.2.1, h.2.2.2⟩

/-- **C7** Branch-key normalization is idempotent and collision-tolerant:
`normalize` is idempotent on every string; the three spellings `"MG Road"`,
`"mg-road"` and `"  MG   Road  "` all normalize to the same key; and the
empty/absent value normalizes to the empty string. -/
theorem normalize_idempotent_collision_tolerant :
    (∀ s : String, normalize (normalize s) = normalize s) ∧
    normalize "MG Road" = normalize "mg-road" ∧
    normalize "mg-road" = normalize "  MG   Road  " ∧
    normalize "" = "" := by
  refine ⟨normalize_idem, by decide, by decide, by decide⟩

/-- **C6** counterexample: the claimed "one more than the highest
strictly-numeric serial value" is wrong for the CSV `"serial\n5\n3"`.
Its serial column holds the numerics 5 and 3 (highest 5), but the backward
scan stops at the first numeric from the bottom — the 3 — and the route
answers `"4"`, not `"6"`. The full-scan maximum would be consulted only if
the backward scan found no numeric at all. -/
theorem next_serial_not_highest_counterexample :
    parseCsv "serial\n5\n3" = [["serial"], ["5"], ["3"]] ∧
    findSerialIdx ["serial"] "quotation" = some 0 ∧
    columnMax (parseCsv "serial\n5\n3") 0 = 5 ∧
    nextSerialFromCsv "serial\n5\n3" "quotation" = "4" ∧
    nextSerialFromCsv "serial\n5\n3" "quotation" ≠ toString (5 + 1) := by
  refine ⟨by decide, by decide, by decide, by decide, by decide⟩

/-- **C6** (amended): the next-serial computation returns `"1"` when no CSV
URL is configured, when the CSV parses to no rows, or when no header is
recognized as the serial column. With a recognized column it returns one
more than the value found by the backward scan — the first strictly-numeric
cell counting from the last row up (which equals the highest value only
when the column is nondecreasing) — and falls back to one more than the
full-scan column maximum (hence `"1"` when no cell is numeric, the maximum
being 0) only when that backward scan finds no numeric cell. -/
theorem next_serial_amended (csvUrl : Option String) (fetched csv kind : String)
    (idx n : Nat) :
    (csvUrl = none → quotationNextSerial csvUrl fetched = "1") ∧
    (parseCsv csv = [] → nextSerialFromCsv csv kind = "1") ∧
    (findSerialIdx ((parseCsv csv).headD []) kind = none →
      nextSerialFromCsv csv kind = "1") ∧
    (findSerialIdx ((parseCsv csv).headD []) kind = some idx →
      backwardScan (parseCsv csv) idx = some n →
      nextSerialFromCsv csv kind = toString (n + 1)) ∧
    (parseCsv csv ≠ [] → findSerialIdx ((parseCsv csv).headD []) kind = some idx →
      backwardScan (parseCsv csv) idx = none →
      nextSerialFromCsv csv kind = toString (columnMax (parseCsv csv) idx + 1)) := by
  refine ⟨?_, ?_, ?_, ?_, ?_⟩
  · intro h
    subst h
    rfl
  · intro h
    simp only [nextSerialFromCsv, nextSerialFromRows, h]
    rfl
  · intro h
    simp only [nextSerialFromCsv, nextSerialFromRows, h]
    split
    · rfl
    · rfl
  · intro hidx hbk
    by_cases hr : parseCsv csv = []
    · rw [hr] at hbk
      simp [backwardScan] at hbk
    · simp only [nextSerialFromCsv, nextSerialFromRows, if_neg hr, hidx, hbk]
  · intro hr hidx hbk
    simp only [nextSerialFromCsv, nextSerialFromRows, if_neg hr, hidx, hbk]

/-- Witness for C6 (amended): on the CSV `"serial\n5\n3"` the recognized
column is 0, the backward scan finds 3, and the route answers `"4"`;
with no URL configured the answer is `"1"`. -/
theorem next_serial_amended_witness :
    nextSerialFromCsv "serial\n5\n3" "quotation" = toString (3 + 1) ∧
    quotationNextSerial none "serial\n5\n3" = "1" := by
  have h := next_serial_amended none "serial\n5\n3" "serial\n5\n3" "quotation" 0 3
  exact ⟨h.2.2.2.1 (by decide) (by decide), h.1 rfl⟩

/-- A serial extracted by `extractSerial` is never the empty string: every
branch fires only when the probed field is truthy. -/
theorem extractSerial_ne_empty (p : Option WebhookPayload) (k : String)
    (h : extractSerial p = some k) : k ≠ "" := by
  match p with
  | none => simp [extractSerial] at h
  | some obj =>
    unfold extractSerial at h
    dsimp only at h
    split at h
    next ht => rw [h] at ht; simpa [truthyOptStr] using ht
    split at h
    next ht => rw [h] at ht; simpa [truthyOptStr] using ht
    split at h
    next ht => rw [h] at ht; simpa [truthyOptStr] using ht
    split at h
    next ht => rw [h] at ht; simpa [truthyOptStr] using ht
    simp at h

theorem mapGet_cons_skip (e : String × Nat) (t : List (String × Nat))
    (k : String) (he : (e.1 == k) = false) :
    mapGet (e :: t) k = mapGet t k := by
  unfold mapGet
  rw [List.find?_cons_of_neg]
  simp [he]

theorem mapGet_cons_hit (e : String × Nat) (t : List (String × Nat))
    (k : String) (he : (e.1 == k) = true) :
    mapGet (e :: t) k = some e.2 := by
  unfold mapGet
  rw [List.find?_cons_of_pos]
  · rfl
  · exact he

theorem mapGet_map_replace (m : List (String × Nat)) (k : String) (v : Nat)
    (hany : m.any (fun e => e.1 == k) = true) :
    mapGet (m.map (fun e => if e.1 == k then (k, v) else e)) k = some v := by
  induction m with
  | nil => simp at hany
  | cons e t ih =>
    cases he : (e.1 == k) with
    | true =>
      rw [List.map_cons, if_pos he, mapGet_cons_hit _ _ _ (by simp)]
    | false =>
      simp only [List.any_cons, he, Bool.false_or] at hany
      rw [List.map_cons, if_neg (by simp [he]), mapGet_cons_skip _ _ _ he]
      exact ih hany

theorem mapGet_append_missing (m : List (String × Nat)) (k : String) (v : Nat)
    (hnone : m.any (fun e => e.1 == k) = false) :
    mapGet (m ++ [(k, v)]) k = some v := by
  induction m with
  | nil => simp [mapGet]
  | cons e t ih =>
    simp only [List.any_cons, Bool.or_eq_false_iff] at hnone
    rw [List.cons_append, mapGet_cons_skip _ _ _ hnone.1]
    exact ih hnone.2

/-- `Map.set` makes the key read back the written value. -/
theorem mapGet_mapSet (m : List (String × Nat)) (k : String) (v : Nat) :
    mapGet (mapSet m k v) k = some v := by
  unfold mapSet
  split
  · exact mapGet_map_replace m k v (by assumption)
  · next h => exact mapGet_append_missing m k v (Bool.eq_false_iff.mpr h)

/-- After `Map.set`, every entry carrying the written key carries the written
value. -/
theorem mapSet_key_val (m : List (String × Nat)) (k : String) (v : Nat) :
    ∀ e ∈ mapSet m k v, (e.1 == k) = true → e = (k, v) := by
  intro e he hk
  unfold mapSet at he
  split at he
  · obtain ⟨a, _, rfl⟩ := List.mem_map.mp he
    cases h : (a.1 == k) with
    | true => simp
    | false => simp [h] at hk
  · next hany =>
    rcases List.mem_append.mp he with h | h
    · exact absurd (List.any_eq_true.mpr ⟨e, h, hk⟩) hany
    · simpa using h

/-- Filtering by a predicate that keeps `(k, v)` preserves the lookup of `k`
when every `k`-entry is `(k, v)`. -/
theorem mapGet_filter_keep (pred : String × Nat → Bool) (M : List (String × Nat))
    (k : String) (v : Nat)
    (hall : ∀ e ∈ M, (e.1 == k) = true → e = (k, v))
    (hv : pred (k, v) = true)
    (hfind : mapGet M k = some v) :
    mapGet (M.filter pred) k = some v := by
  induction M with
  | nil => simp [mapGet] at hfind
  | cons e t ih =>
    have hall' : ∀ a ∈ t, (a.1 == k) = true → a = (k, v) :=
      fun a ha => hall a (List.mem_cons_of_mem _ ha)
    cases he : (e.1 == k) with
    | true =>
      have hekv : e = (k, v) := hall e (by simp) he
      subst hekv
      rw [List.filter_cons_of_pos hv, mapGet_cons_hit _ _ _ he]
    | false =>
      have hget : mapGet t k = some v := by
        rw [mapGet_cons_skip _ _ _ he] at hfind
        exact hfind
      cases hp : pred e with
      | true =>
        rw [List.filter_cons_of_pos hp, mapGet_cons_skip _ _ _ he]
        exact ih hall' hget
      | false =>
        rw [List.filter_cons_of_neg (by simp [hp])]
        exact ih hall' hget

theorem markSerial_now (st : WebhookSt) (k : String) :
    (markSerial st k).now = st.now := by
  unfold markSerial
  split
  · rfl
  · dsimp only
    split <;> rfl

/-- `markSerial` records the key at the state's current time; the prune never
removes the fresh entry (its timestamp is the cutoff's `Date.now()` itself). -/
theorem mapGet_markSerial (st : WebhookSt) (k : String) (hk : k ≠ "") :
    mapGet (markSerial st k).recent k = some st.now := by
  unfold markSerial
  rw [if_neg hk]
  dsimp only
  split
  · exact mapGet_filter_keep _ _ _ _
      (mapSet_key_val st.recent k st.now)
      (by simp [Nat.not_lt.mpr (Nat.sub_le st.now IDEMPOTENCY_TTL_MS)])
      (mapGet_mapSet st.recent k st.now)
  · exact mapGet_mapSet st.recent k st.now

/-- A forward that resolves 2xx for a fresh serial: forwarded, not suppressed,
and the state is `markSerial`. -/
theorem bookingWebhook_success_eq (url : String) (p : Option WebhookPayload)
    (k : String) (code : Nat) (st : WebhookSt)
    (hurl : ¬ url = "") (hser : extractSerial p = some k)
    (hdup : isDuplicateSerial st k = false) (h2 : statusStartsWith2 code = true) :
    bookingWebhook url p (.status code) st =
      ({ httpStatus := 200, forwarded := true, duplicateSuppressed := false },
        markSerial st k) := by
  unfold bookingWebhook
  rw [if_neg hurl]
  simp only [hser, hdup, h2]
  rfl

/-- A non-2xx forward never touches the idempotency state and never reports
`forwarded`. -/
theorem bookingWebhook_no_mark_non2xx (url : String) (p : Option WebhookPayload)
    (code : Nat) (st : WebhookSt) (h2 : statusStartsWith2 code = false) :
    (bookingWebhook url p (.status code) st).2 = st ∧
    (bookingWebhook url p (.status code) st).1.forwarded = false := by
  unfold bookingWebhook
  split
  · exact ⟨rfl, rfl⟩
  · dsimp only
    split
    · exact ⟨rfl, rfl⟩
    · simp only [h2]
      exact ⟨rfl, rfl⟩

/-- A thrown network error lands in the catch: 500, state untouched. -/
theorem bookingWebhook_no_mark_netError (url : String) (p : Option WebhookPayload)
    (st : WebhookSt) :
    (bookingWebhook url p .netError st).2 = st ∧
    (bookingWebhook url p .netError st).1.forwarded = false := by
  unfold bookingWebhook
  split
  · exact ⟨rfl, rfl⟩
  · dsimp only
    split
    · exact ⟨rfl, rfl⟩
    · exact ⟨rfl, rfl⟩

/-- **C9** The booking-webhook proxy records a payload's extracted serial into
the 10-minute idempotency map only after the forwarded call returns a 2xx
status: (a) a 2xx forward of a fresh serial is forwarded and records the
serial at the current time; (b) a non-2xx response and (c) a thrown network
error leave the map untouched and do not report the call as forwarded, so
(d) an identical retry after such a failure is forwarded again rather than
suppressed as a duplicate, while (e) a retry within the TTL after a
successful 2xx forward is suppressed. -/
theorem webhook_marks_serial_only_after_2xx
    (url : String) (p : Option WebhookPayload) (k : String) (code code2 : Nat)
    (st : WebhookSt) (d : Nat) :
    (url ≠ "" → extractSerial p = some k → isDuplicateSerial st k = false →
      statusStartsWith2 code = true →
      (bookingWebhook url p (.status code) st).1.forwarded = true ∧
      (bookingWebhook url p (.status code) st).1.duplicateSuppressed = false ∧
      mapGet (bookingWebhook url p (.status code) st).2.recent k = some st.now) ∧
    (statusStartsWith2 code = false →
      (bookingWebhook url p (.status code) st).2 = st ∧
      (bookingWebhook url p (.status code) st).1.forwarded = false) ∧
    ((bookingWebhook url p .netError st).2 = st ∧
      (bookingWebhook url p .netError st).1.forwarded = false) ∧
    (url ≠ "" → extractSerial p = some k → isDuplicateSerial st k = false →
      statusStartsWith2 code = false → statusStartsWith2 code2 = true →
      (bookingWebhook url p (.status code2)
          (bookingWebhook url p (.status code) st).2).1.forwarded = true ∧
      (bookingWebhook url p (.status code2)
          (bookingWebhook url p (.status code) st).2).1.duplicateSuppressed = false) ∧
    (url ≠ "" → extractSerial p = some k → isDuplicateSerial st k = false →
      statusStartsWith2 code = true → 0 < st.now → d < IDEMPOTENCY_TTL_MS →
      (bookingWebhook url p (.status code2)
          { recent := (bookingWebhook url p (.status code) st).2.recent
            now := st.now + d }).1.duplicateSuppressed = true ∧
      (bookingWebhook url p (.status code2)
          { recent := (bookingWebhook url p (.status code) st).2.recent
            now := st.now + d }).1.forwarded = false) := by
  refine ⟨?_, ?_, ?_, ?_, ?_⟩
  · intro hurl hser hdup h2
    rw [bookingWebhook_success_eq url p k code st hurl hser hdup h2]
    exact ⟨rfl, rfl, mapGet_markSerial st k (extractSerial_ne_empty p k hser)⟩
  · intro h2
    exact bookingWebhook_no_mark_non2xx url p code st h2
  · exact bookingWebhook_no_mark_netError url p st
  · intro hurl hser hdup h2 h2'
    rw [(bookingWebhook_no_mark_non2xx url p code st h2).1,
      bookingWebhook_success_eq url p k code2 st hurl hser hdup h2']
    exact ⟨rfl, rfl⟩
  · intro hurl hser hdup h2 hnow hd
    rw [bookingWebhook_success_eq url p k code st hurl hser hdup h2]
    have hk : k ≠ "" := extractSerial_ne_empty p k hser
    have hdup2 : isDuplicateSerial
        { recent := (markSerial st k).recent, now := st.now + d } k = true := by
      unfold isDuplicateSerial
      rw [if_neg hk]
      dsimp only
      rw [mapGet_markSerial st k hk]
      simp only [Nat.add_sub_cancel_left]
      have hne : st.now ≠ 0 := by omega
      simp [hne, hd]
    unfold bookingWebhook
    rw [if_neg hurl]
    simp only [hser, hdup2]
    exact ⟨rfl, rfl⟩

/-- Witness for C9: on an empty idempotency map at time 100, forwarding the
`Q1` quotation payload through a 404 leaves the map empty and the retry then
forwards and records `Q1`; after that success a retry 5ms later is
suppressed. -/
theorem webhook_marks_serial_only_after_2xx_witness :
    ("https://script.example/exec" ≠ "" ∧ extractSerial (some exWebPayload) = some "Q1" ∧
      isDuplicateSerial exWebSt "Q1" = false ∧ statusStartsWith2 404 = false ∧
      statusStartsWith2 200 = true ∧ 0 < exWebSt.now ∧ 5 < IDEMPOTENCY_TTL_MS) ∧
    ((bookingWebhook "https://script.example/exec" (some exWebPayload)
        (.status 404) exWebSt).2 = exWebSt ∧
      (bookingWebhook "https://script.example/exec" (some exWebPayload)
        (.status 404) exWebSt).1.forwarded = false) ∧
    ((bookingWebhook "https://script.example/exec" (some exWebPayload) (.status 200)
        (bookingWebhook "https://script.example/exec" (some exWebPayload)
          (.status 404) exWebSt).2).1.forwarded = true) ∧
    ((bookingWebhook "https://script.example/exec" (some exWebPayload) (.status 200)
        { recent := (bookingWebhook "https://script.example/exec" (some exWebPayload)
            (.status 200) exWebSt).2.recent
          now := exWebSt.now + 5 }).1.duplicateSuppressed = true) := by
  have h := webhook_marks_serial_only_after_2xx "https://script.example/exec"
    (some exWebPayload) "Q1" 404 200 exWebSt 5
  have h' := webhook_marks_serial_only_after_2xx "https://script.example/exec"
    (some exWebPayload) "Q1" 200 200 exWebSt 5
  refine ⟨⟨by decide, by decide, by decide, by decide, by decide, by decide, by decide⟩,
    h.2.1 (by decide),
    (h.2.2.2.1 (by decide) (by decide) (by decide) (by decide) (by decide)).1,
    (h'.2.2.2.2 (by decide) (by decide) (by decide) (by decide) (by decide) (by decide)).1⟩

end ShanthaMotors
